import Mathlib

/-!
# codify-api: relational consistency of the controllers

A shallow embedding of the controllers of `src/ctrl` (`users.js`, `projects.js`,
`favorites.js`).

* The database is a record of tables, each table a list of rows. SQL statements
  are functions on that record that do what their text says. Constraints
  declared by the schema are not part of the sources; a statement the database
  refuses is represented by a failed driver call of the fault plan.
* A handler talks to the database through driver calls (`getConnection`,
  `beginTransaction`, `execute`/`query`, `commit`, `rollback`). Every driver
  call has a position (the number of driver calls made before it) and a fault
  plan says which positions fail.
* `try`/`catch`/`finally` of the handlers are the combinators `tryCatch` and
  `tryFinally`.
-/

namespace Codify

/-! ## Tables -/

/-- Row of `users` (the credential and the timestamps take part in no statement modelled here). -/
structure UserRow where
  id : Nat
  name : String
  email : String
deriving DecidableEq, Repr

/-- Row of `projects` (the timestamps `createdAt` and `updatedAt` are left out: no
statement of the write path reads them). -/
structure ProjectRow where
  id : Nat
  name : String
  description : String
  fk_user : Nat
deriving DecidableEq, Repr

/-- Row of `projects_technologies`. -/
structure ProjectTechnologyRow where
  project_id : Nat
  technology_id : Nat
deriving DecidableEq, Repr

/-- Row of `users_favorites`. -/
structure UserFavoriteRow where
  user_id : Nat
  favUser_id : Nat
deriving DecidableEq, Repr

/-- Row of `projects_favorites`. -/
structure ProjectFavoriteRow where
  user_id : Nat
  project_id : Nat
deriving DecidableEq, Repr

/-- The rows of the five tables the controllers write to. -/
structure Store where
  users : List UserRow
  projects : List ProjectRow
  projects_technologies : List ProjectTechnologyRow
  users_favorites : List UserFavoriteRow
  projects_favorites : List ProjectFavoriteRow
deriving DecidableEq, Repr

/-! ## The driver -/

/-- The database and the pool as one handler sees them.
`committed` is the durable state, `tx` the working copy of the open transaction
(if any), `autoInc` the AUTO_INCREMENT counter of `projects`, `calls` the number
of driver calls made so far, `acquired`/`released` the pool counters. -/
structure World where
  committed : Store
  tx : Option Store
  autoInc : Nat
  calls : Nat
  acquired : Nat
  released : Nat
deriving DecidableEq, Repr

/-- The state statements of the connection read and write. -/
def World.view (w : World) : Store := w.tx.getD w.committed

/-- Write through the connection: into the open transaction, else autocommit. -/
def World.setView (w : World) (s : Store) : World :=
  match w.tx with
  | some _ => { w with tx := some s }
  | none => { w with committed := s }

/-- A fault plan: `f i = true` when the driver call at position `i` fails. -/
abbrev Faults := Nat → Bool

/-- The plan in which no driver call fails. -/
def noFaults : Faults := fun _ => false

/-- The plan in which exactly the driver call at position `k` fails. -/
def failAt (k : Nat) : Faults := fun i => i == k

/-- Values a handler can throw. -/
inductive Thrown where
  | driver                               -- an error raised by the mysql driver
  | typeError                            -- method call on `undefined`
  | http (code : Nat) (msg : String)     -- `throw new HttpError(msg, code)`
deriving DecidableEq, Repr

/-- Computations of a handler: they read the fault plan, change the world and
either return or throw. -/
def M (α : Type) : Type := Faults → World → Except Thrown α × World

/-- Sequencing: a throw skips the continuation. -/
def M.bind {α β : Type} (m : M α) (k : α → M β) : M β := fun f w =>
  match m f w with
  | (.ok a, w1) => k a f w1
  | (.error e, w1) => (.error e, w1)

instance : Monad M where
  pure a := fun _ w => (.ok a, w)
  bind := M.bind

/-- The statement `throw e`. -/
def throwJs {α : Type} (e : Thrown) : M α := fun _ w => (.error e, w)

/-- The block `try { body } catch (error) { handler }`. -/
def tryCatch {α : Type} (body : M α) (handler : Thrown → M α) : M α := fun f w =>
  match body f w with
  | (.ok a, w1) => (.ok a, w1)
  | (.error e, w1) => handler e f w1

/-- The block `try { body } finally { fin }`: `fin` runs on every exit. -/
def tryFinally {α : Type} (body : M α) (fin : M Unit) : M α := fun f w =>
  match body f w with
  | (r, w1) =>
    match fin f w1 with
    | (.ok _, w2) => (r, w2)
    | (.error e, w2) => (.error e, w2)

/-- The loop `for (const x of xs) { await body(x) }`. -/
def forEach {α : Type} : List α → (α → M Unit) → M Unit
  | [], _ => pure ()
  | x :: xs, body => M.bind (body x) (fun _ => forEach xs body)

/-- A driver call: it fails when the fault plan says so (and then has no
effect), otherwise it has the effect `eff`. Either way it takes one position. -/
def call {α : Type} (eff : World → α × World) : M α := fun f w =>
  if f w.calls then (.error .driver, { w with calls := w.calls + 1 })
  else
    let r := eff w
    (.ok r.1, { r.2 with calls := w.calls + 1 })

/-- A pooled connection (the model follows one connection at a time). -/
structure Connection where
  id : Nat
deriving DecidableEq, Repr

/-- The call `pool.getConnection()`. -/
def getConnection : M Connection :=
  call fun w => (⟨w.acquired⟩, { w with acquired := w.acquired + 1 })

/-- The call `connection.beginTransaction()`: an open transaction is committed
implicitly, then the working copy starts from the durable state. -/
def beginTransaction (_ : Connection) : M Unit :=
  call fun w => ((), { w with committed := w.view, tx := some w.view })

/-- The calls `connection.execute(sql, params)` and `connection.query(sql, params)`:
`q` is the statement as a function from the state it sees to its result and
the state it leaves. -/
def execute {α : Type} (_ : Connection) (q : Store → α × Store) : M α :=
  call fun w => ((q w.view).1, w.setView (q w.view).2)

/-- The call `connection.commit()`. -/
def commit (_ : Connection) : M Unit :=
  call fun w => ((), { w with committed := w.view, tx := none })

/-- The call `connection.rollback()`. -/
def rollback (_ : Connection) : M Unit :=
  call fun w => ((), { w with tx := none })

/-- The call `connection.release()` (synchronous, it does not fail). -/
def release (_ : Connection) : M Unit := fun _ w =>
  (.ok (), { w with released := w.released + 1 })

/-! ## Requests and responses -/

/-- What a handler reads from the request.
`uid`/`pid` are the values of `+req.params.uid`/`+req.params.pid` (`none` for
NaN), `validationErrors` the messages of `validationResult(req)`, `userId` the
body field, `authUserId` the field `req.userData.userId` set by the
authentication middleware. -/
structure Request where
  uid : Option Nat := none
  pid : Option Nat := none
  validationErrors : List String := []
  userId : Nat := 0
  authUserId : Nat := 0
  projectName : String := ""
  projectDesc : String := ""
  technologies : Option (List Nat) := none
deriving DecidableEq, Repr

/-- How a handler ends. -/
inductive Outcome where
  | json (status : Nat) (key : String)   -- `res.status(status).json({ key: true })`
  | isFav (value : Bool)                 -- `res.json({ isFav: value })`
  | next (code : Nat) (msg : String)     -- `next(new HttpError(msg, code))`
  | rejected (e : Thrown)                -- the error escapes the async handler
deriving DecidableEq, Repr

/-- Run a handler: an error it does not catch rejects its promise. -/
def runHandler (m : M Outcome) (f : Faults) (w : World) : Outcome × World :=
  match m f w with
  | (.ok o, w1) => (o, w1)
  | (.error e, w1) => (.rejected e, w1)

/-- The message `errors.array().map(error => error.msg).join(' ')`. -/
def joinMessages (errors : List String) : String := " ".intercalate errors

/-! ## Read path: folding joined rows (`projects.js`, `favorites.js`) -/

/-- In-place update of the object `find` returned: the first element that
satisfies `p` is replaced by `g` of it. -/
def modifyFirst {α : Type} (p : α → Bool) (g : α → α) : List α → List α
  | [] => []
  | x :: xs => if p x then g x :: xs else x :: modifyFirst p g xs

/-- One step of the grouping scan shared by the three listings:
`find` an entity with the key of the row; if there is one, update it in place,
else push a new entity made from the row. -/
def groupStep {ρ ε : Type} (ekey : ε → Nat) (rkey : ρ → Nat) (mk : ρ → ε)
    (push : ρ → ε → ε) (acc : List ε) (row : ρ) : List ε :=
  match acc.find? (fun e => ekey e == rkey row) with
  | some _ => modifyFirst (fun e => ekey e == rkey row) (push row) acc
  | none => acc ++ [mk row]

/-- Row of the query of `getProjects` (timestamps as numbers). -/
structure ProjectsRow where
  projectId : Nat
  projectName : String
  projectDescription : String
  projectUpdatedAt : Nat
  creator : String
  creatorId : Nat
  creatorEmail : String
  technologyName : Option String
deriving DecidableEq, Repr

/-- Element of the array `getProjects` answers with. -/
structure ProjectsItem where
  projectId : Nat
  projectName : String
  projectDescription : String
  projectUpdatedAt : Nat
  creator : String
  creatorId : Nat
  creatorEmail : String
  technologies : List (Option String)
deriving DecidableEq, Repr

/-- The array `projects` built by the `forEach` of `getProjects`
(projects.js 25-42); `md5` is the function of the `md5` package. -/
def getProjects.projects (md5 : String → String) (results : List ProjectsRow) :
    List ProjectsItem :=
  results.foldl (fun projects result =>
    match projects.find? (fun project => project.projectId == result.projectId) with
    | some _ =>
      modifyFirst (fun project => project.projectId == result.projectId)
        (fun existingProject =>
          { existingProject with
            technologies := existingProject.technologies ++ [result.technologyName] })
        projects
    | none =>
      projects ++ [{
        projectId := result.projectId
        projectName := result.projectName
        projectDescription := result.projectDescription
        projectUpdatedAt := result.projectUpdatedAt
        creator := result.creator
        creatorId := result.creatorId
        creatorEmail := md5 result.creatorEmail
        technologies := [result.technologyName] }]) []

/-- Row of the query of `getProjectsByUserId`. -/
structure UserProjectsRow where
  projectId : Nat
  projectName : String
  projectDescription : String
  projectCreatedAt : Nat
  projectUpdatedAt : Nat
  technologyName : Option String
deriving DecidableEq, Repr

/-- Element of the array `getProjectsByUserId` answers with (`creator` and
`creatorId` are read from columns the query does not select: `undefined`,
left out of the JSON). -/
structure UserProjectsItem where
  projectId : Nat
  projectName : String
  projectDescription : String
  projectCreatedAt : Nat
  projectUpdatedAt : Nat
  technologies : List (Option String)
deriving DecidableEq, Repr

/-- The array `projects` built by the `forEach` of `getProjectsByUserId`
(projects.js 76-93). -/
def getProjectsByUserId.projects (results : List UserProjectsRow) : List UserProjectsItem :=
  results.foldl (fun projects result =>
    match projects.find? (fun project => project.projectId == result.projectId) with
    | some _ =>
      modifyFirst (fun project => project.projectId == result.projectId)
        (fun existingProject =>
          { existingProject with
            technologies := existingProject.technologies ++ [result.technologyName] })
        projects
    | none =>
      projects ++ [{
        projectId := result.projectId
        projectName := result.projectName
        projectDescription := result.projectDescription
        projectCreatedAt := result.projectCreatedAt
        projectUpdatedAt := result.projectUpdatedAt
        technologies := [result.technologyName] }]) []

/-- Row of the query of `getProjectById`. -/
structure ProjectByIdRow where
  projectName : String
  projectDescription : String
  creatorId : Nat
  technologyId : Option Nat
  technologyName : Option String
deriving DecidableEq, Repr

/-- The objects pushed into `technologies`: the id and the name as the row has them. -/
structure TechnologyRef where
  id : Option Nat
  name : Option String
deriving DecidableEq, Repr

/-- The object `getProjectById` answers with. -/
structure ProjectById where
  projectName : String
  projectDescription : String
  creatorId : Nat
  technologies : List TechnologyRef
deriving DecidableEq, Repr

/-- The object `project` of `getProjectById` (projects.js 209-220); `none` is
the 404 answer for an empty result. -/
def getProjectById.project (results : List ProjectByIdRow) : Option ProjectById :=
  match results with
  | [] => none
  | r0 :: _ =>
    some {
      projectName := r0.projectName
      projectDescription := r0.projectDescription
      creatorId := r0.creatorId
      technologies := results.map fun result =>
        { id := result.technologyId, name := result.technologyName } }

/-- Row of the query of `getProjectsFavorites`. -/
structure FavoriteProjectsRow where
  project_id : Nat
  project_name : String
  project_description : String
  project_updatedAt : Nat
  creator_id : Nat
  technology_id : Option Nat
  technology_name : Option String
deriving DecidableEq, Repr

/-- Element of the array `getProjectsFavorites` answers with. -/
structure FavoriteProject where
  id : Nat
  name : String
  description : String
  updatedAt : Nat
  creatorId : Nat
  technologies : List TechnologyRef
deriving DecidableEq, Repr

/-- Truthiness of a nullable number: `null` and `0` are falsy. -/
def truthy : Option Nat → Bool
  | some (_ + 1) => true
  | _ => false

/-- The array `projects` built by the `reduce` of `getProjectsFavorites`
(favorites.js 288-310). -/
def getProjectsFavorites.projects (results : List FavoriteProjectsRow) : List FavoriteProject :=
  results.foldl (fun acc row =>
    match acc.find? (fun p => p.id == row.project_id) with
    | some _ =>
      modifyFirst (fun p => p.id == row.project_id)
        (fun existingProject =>
          if truthy row.technology_id then
            { existingProject with
              technologies := existingProject.technologies ++
                [{ id := row.technology_id, name := row.technology_name }] }
          else existingProject)
        acc
    | none =>
      acc ++ [{
        id := row.project_id
        name := row.project_name
        description := row.project_description
        updatedAt := row.project_updatedAt
        creatorId := row.creator_id
        technologies :=
          if truthy row.technology_id then
            [{ id := row.technology_id, name := row.technology_name }]
          else [] }]) []

/-! ## Statements

Each SQL statement of the controllers as a function from the state it sees to
its result rows and the state it leaves; `SELECT` leaves the state as it is. -/

namespace Sql

/-- `DELETE FROM users_favorites WHERE user_id = ? OR favUser_id = ?`. -/
def deleteUsersFavoritesOf (a b : Nat) (s : Store) : Unit × Store :=
  ((), { s with users_favorites :=
    s.users_favorites.filter (fun r => !(r.user_id == a || r.favUser_id == b)) })

/-- `SELECT id FROM projects WHERE fk_user = ?`. -/
def selectProjectIdsOfUser (u : Nat) (s : Store) : List Nat × Store :=
  ((s.projects.filter (fun p => p.fk_user == u)).map (fun p => p.id), s)

/-- `DELETE FROM projects_technologies WHERE project_id = ?`. -/
def deleteProjectTechnologies (p : Nat) (s : Store) : Unit × Store :=
  ((), { s with projects_technologies :=
    s.projects_technologies.filter (fun r => !(r.project_id == p)) })

/-- `DELETE FROM projects WHERE fk_user = ?`. -/
def deleteProjectsOfUser (u : Nat) (s : Store) : Unit × Store :=
  ((), { s with projects := s.projects.filter (fun p => !(p.fk_user == u)) })

/-- `DELETE FROM users WHERE id = ?`. -/
def deleteUserById (u : Nat) (s : Store) : Unit × Store :=
  ((), { s with users := s.users.filter (fun r => !(r.id == u)) })

/-- `DELETE FROM projects WHERE id = ?`. -/
def deleteProjectById (p : Nat) (s : Store) : Unit × Store :=
  ((), { s with projects := s.projects.filter (fun r => !(r.id == p)) })

/-- `INSERT INTO projects_technologies (project_id, technology_id) VALUES (?, ?)`. -/
def insertProjectTechnology (p t : Nat) (s : Store) : Unit × Store :=
  ((), { s with projects_technologies :=
    s.projects_technologies ++ [{ project_id := p, technology_id := t }] })

/-- `UPDATE projects SET name = ?, description = ?, updatedAt = DEFAULT
WHERE id = ? AND fk_user = ?` (on the columns of `ProjectRow`). -/
def updateProject (name description : String) (p u : Nat) (s : Store) : Unit × Store :=
  ((), { s with projects := s.projects.map (fun r =>
    if r.id == p && r.fk_user == u then { r with name := name, description := description }
    else r) })

/-- `SELECT fk_user FROM projects WHERE id = ?`. -/
def selectCreatorOfProject (p : Nat) (s : Store) : List Nat × Store :=
  ((s.projects.filter (fun r => r.id == p)).map (fun r => r.fk_user), s)

/-- `SELECT id FROM projects WHERE id = ?`. -/
def selectProjectId (p : Nat) (s : Store) : List Nat × Store :=
  ((s.projects.filter (fun r => r.id == p)).map (fun r => r.id), s)

/-- `SELECT id FROM users WHERE id = ?`. -/
def selectUserId (u : Nat) (s : Store) : List Nat × Store :=
  ((s.users.filter (fun r => r.id == u)).map (fun r => r.id), s)

/-- `SELECT * FROM users_favorites WHERE user_id = ? AND favUser_id = ?`. -/
def selectUserFavorite (a b : Nat) (s : Store) : List UserFavoriteRow × Store :=
  (s.users_favorites.filter (fun r => r.user_id == a && r.favUser_id == b), s)

/-- `INSERT INTO users_favorites (user_id, favUser_id) VALUES (?, ?)`. -/
def insertUserFavorite (a b : Nat) (s : Store) : Unit × Store :=
  ((), { s with users_favorites := s.users_favorites ++ [{ user_id := a, favUser_id := b }] })

/-- `DELETE FROM users_favorites WHERE user_id = ? AND favUser_id = ?`. -/
def deleteUserFavorite (a b : Nat) (s : Store) : Unit × Store :=
  ((), { s with users_favorites :=
    s.users_favorites.filter (fun r => !(r.user_id == a && r.favUser_id == b)) })

/-- `SELECT * FROM users_favorites WHERE user_id = ? AND favUser_id = ?
AND NOT (user_id = ? AND favUser_id = ?)`. -/
def selectUserFavoriteNotReversed (a b c d : Nat) (s : Store) : List UserFavoriteRow × Store :=
  (s.users_favorites.filter (fun r =>
    r.user_id == a && r.favUser_id == b && !(r.user_id == c && r.favUser_id == d)), s)

/-- A statement whose `WHERE` compares a key column with a numeric parameter that
was not checked for NaN: NaN equals no key, the statement touches no row. -/
def withNumber (n : Option Nat) (q : Nat → Store → Unit × Store) (s : Store) : Unit × Store :=
  match n with
  | some k => q k s
  | none => ((), s)

/-- `INSERT INTO projects_favorites (user_id, project_id) VALUES (?, ?)`. -/
def insertProjectFavorite (u p : Nat) (s : Store) : Unit × Store :=
  ((), { s with projects_favorites :=
    s.projects_favorites ++ [{ user_id := u, project_id := p }] })

end Sql

/-- The call `connection.execute('INSERT INTO projects (name, description, fk_user)
VALUES (?, ?, ?)', ...)`: the row gets the next AUTO_INCREMENT value, returned as
`insertId`; the counter is not part of what a rollback restores. -/
def executeInsertProject (_ : Connection) (name description : String) (u : Nat) : M Nat :=
  call fun w =>
    (w.autoInc,
      { w.setView { w.view with projects := w.view.projects ++
          [{ id := w.autoInc, name := name, description := description, fk_user := u }] }
        with autoInc := w.autoInc + 1 })

/-! ## Write path: the handlers -/

/-- Handler `deleteUser` (users.js 59-94). -/
def deleteUser (req : Request) : M Outcome :=
  match req.uid with
  | none => pure (.next 400 "Invalid user ID")
  | some userIdUrl =>
    if userIdUrl = 0 then pure (.next 400 "Invalid user ID")
    else if req.validationErrors ≠ [] then
      pure (.next 422 (joinMessages req.validationErrors))
    else if userIdUrl ≠ req.authUserId ∨ req.userId ≠ req.authUserId then
      pure (.next 401 "You're not allowed to delete this user")
    else fun f w =>
      -- `let connection; try { connection = await pool.getConnection(); ...`
      match getConnection f w with
      | (.error _, w1) =>
        -- catch: `connection` is undefined, `connection.rollback()` is a TypeError;
        -- finally: `if (connection)` is false
        (.error .typeError, w1)
      | (.ok connection, w1) =>
        tryFinally
          (tryCatch
            (do
              beginTransaction connection
              execute connection (Sql.deleteUsersFavoritesOf req.userId req.userId)
              let projects ← execute connection (Sql.selectProjectIdsOfUser req.userId)
              forEach projects fun project =>
                execute connection (Sql.deleteProjectTechnologies project)
              execute connection (Sql.deleteProjectsOfUser req.userId)
              execute connection (Sql.deleteUserById req.userId)
              commit connection
              pure (.json 200 "userDeleted"))
            (fun _ => do
              rollback connection
              pure (.next 500 "Error deleting user and associated data")))
          (release connection) f w1

/-- Handler `addProject` (projects.js 122-158). -/
def addProject (req : Request) : M Outcome :=
  if req.validationErrors ≠ [] then
    pure (.next 422 (joinMessages req.validationErrors))
  else if req.userId ≠ req.authUserId then
    pure (.next 401 "You're not allowed to add a project")
  else do
    let connection ← getConnection
    beginTransaction connection
    tryFinally
      (tryCatch
        (do
          let projectId ← executeInsertProject connection req.projectName req.projectDesc req.userId
          (match req.technologies with
            | some (techId :: rest) =>
              forEach (techId :: rest) fun techId =>
                execute connection (Sql.insertProjectTechnology projectId techId)
            | _ => pure ())
          commit connection
          pure (.json 201 "projectAdded"))
        (fun _ => do
          rollback connection
          pure (.next 500 "Could not add the project")))
      (release connection)

/-- Handler `deleteProject` (projects.js 160-186); `projectId = +req.params.pid` is
used as it is, no guard reads it. -/
def deleteProject (req : Request) : M Outcome :=
  if req.validationErrors ≠ [] then
    pure (.next 422 (joinMessages req.validationErrors))
  else if req.userId ≠ req.authUserId then
    pure (.next 401 "You're not allowed to delete this project.")
  else do
    let connection ← getConnection
    beginTransaction connection
    tryFinally
      (tryCatch
        (do
          execute connection (Sql.withNumber req.pid Sql.deleteProjectTechnologies)
          execute connection (Sql.withNumber req.pid Sql.deleteProjectById)
          commit connection
          pure (.json 200 "projectDeleted"))
        (fun _ => do
          rollback connection
          pure (.next 500 "Could not delete project.")))
      (release connection)

/-- Function `getProjectCreatorId` (projects.js 275-295). -/
def getProjectCreatorId (projectId : Nat) : M Nat := do
  let connection ← getConnection
  tryFinally
    (tryCatch
      (do
        let rows ← execute connection (Sql.selectCreatorOfProject projectId)
        match rows with
        | [] => throwJs (.http 404 "Project not found")
        | fk_user :: _ => pure fk_user)
      (fun error => throwJs error))
    (release connection)

/-- Handler `editProject` (projects.js 232-273). -/
def editProject (req : Request) : M Outcome :=
  match req.pid with
  | none => pure (.next 400 "Invalid project ID")
  | some projectId =>
    if projectId = 0 then pure (.next 400 "Invalid project ID")
    else if req.validationErrors ≠ [] then
      pure (.next 422 (joinMessages req.validationErrors))
    else do
      let creatorId ← getProjectCreatorId projectId
      if req.userId ≠ req.authUserId ∨ req.userId ≠ creatorId then
        pure (.next 401 "You're not allowed to edit this project")
      else do
        let connection ← getConnection
        beginTransaction connection
        tryFinally
          (tryCatch
            (do
              execute connection
                (Sql.updateProject req.projectName req.projectDesc projectId req.userId)
              execute connection (Sql.deleteProjectTechnologies projectId)
              (match req.technologies with
                | some (techId :: rest) =>
                  forEach (techId :: rest) fun techId =>
                    execute connection (Sql.insertProjectTechnology projectId techId)
                | _ => pure ())
              commit connection
              pure (.json 200 "projectEdited"))
            (fun _ => do
              rollback connection
              pure (.next 500 "Could not edit the project")))
          (release connection)

/-- Handler `checkIfUserIsFav` (favorites.js 5-40). -/
def checkIfUserIsFav (req : Request) : M Outcome :=
  match req.uid with
  | none => pure (.next 400 "Invalid user ID")
  | some userIdUrl =>
    if userIdUrl = 0 then pure (.next 400 "Invalid user ID")
    else if req.validationErrors ≠ [] then
      pure (.next 422 (joinMessages req.validationErrors))
    else if req.userId ≠ req.authUserId then
      pure (.next 401 "You're not allowed to check if this user is in your favorites.")
    else if userIdUrl = req.userId then
      pure (.next 401 "You cannot check if you are in your own favorites.")
    else do
      let connection ← getConnection
      tryFinally
        (tryCatch
          (do
            let result ← execute connection
              (Sql.selectUserFavoriteNotReversed req.userId userIdUrl userIdUrl req.userId)
            if result.length > 0 then pure (.isFav true)
            else pure (.isFav false))
          (fun _ => pure (.next 500 "Could not check if the user is in your favorites.")))
        (release connection)

/-- Handler `addUserFav` (favorites.js 42-82). -/
def addUserFav (req : Request) : M Outcome :=
  match req.uid with
  | none => pure (.next 400 "Invalid user ID")
  | some userIdUrl =>
    if userIdUrl = 0 then pure (.next 400 "Invalid user ID")
    else if req.validationErrors ≠ [] then
      pure (.next 422 (joinMessages req.validationErrors))
    else if req.userId ≠ req.authUserId then
      pure (.next 401 "You're not allowed to add to favorites for this user.")
    else if req.userId = userIdUrl then
      pure (.next 422 "You can't add yourself to favorites.")
    else do
      let connection ← getConnection
      tryFinally
        (tryCatch
          (do
            let userExists ← execute connection (Sql.selectUserId req.userId)
            let favUserExists ← execute connection (Sql.selectUserId userIdUrl)
            if userExists.length = 0 ∨ favUserExists.length = 0 then
              pure (.next 404 "One or both users do not exist.")
            else do
              let existingRelationship ←
                execute connection (Sql.selectUserFavorite req.userId userIdUrl)
              if existingRelationship.length > 0 then
                pure (.next 422 "This relationship already exists.")
              else do
                execute connection (Sql.insertUserFavorite req.userId userIdUrl)
                pure (.json 201 "userAdded"))
          (fun _ => pure (.next 500 "Could not add this user to favorites")))
        (release connection)

/-- Handler `removeUserFav` (favorites.js 84-124). -/
def removeUserFav (req : Request) : M Outcome :=
  match req.uid with
  | none => pure (.next 400 "Invalid user ID")
  | some userIdUrl =>
    if userIdUrl = 0 then pure (.next 400 "Invalid user ID")
    else if req.validationErrors ≠ [] then
      pure (.next 422 (joinMessages req.validationErrors))
    else if req.userId ≠ req.authUserId then
      pure (.next 401 "You're not allowed to add to favorites for this user.")
    else if req.userId = userIdUrl then
      pure (.next 422 "You can't remove yourself to favorites.")
    else do
      let connection ← getConnection
      tryFinally
        (tryCatch
          (do
            let userExists ← execute connection (Sql.selectUserId req.userId)
            let favUserExists ← execute connection (Sql.selectUserId userIdUrl)
            if userExists.length = 0 ∨ favUserExists.length = 0 then
              pure (.next 404 "One or both users do not exist.")
            else do
              let existingRelationship ←
                execute connection (Sql.selectUserFavorite req.userId userIdUrl)
              if existingRelationship.length = 0 then
                pure (.next 404 "This relationship does not exist.")
              else do
                execute connection (Sql.deleteUserFavorite req.userId userIdUrl)
                pure (.json 200 "userRemoved"))
          (fun _ => pure (.next 500 "Could not remove this user from favorites")))
        (release connection)

/-- Handler `addProjectFav` (favorites.js 167-198). -/
def addProjectFav (req : Request) : M Outcome :=
  match req.pid with
  | none => pure (.next 400 "Invalid project ID")
  | some projectIdUrl =>
    if projectIdUrl = 0 then pure (.next 400 "Invalid project ID")
    else if req.validationErrors ≠ [] then
      pure (.next 422 (joinMessages req.validationErrors))
    else if req.userId ≠ req.authUserId then
      pure (.next 401 "You're not allowed to add this project to your favorites.")
    else do
      let connection ← getConnection
      tryFinally
        (tryCatch
          (do
            let projectExistsRows ← execute connection (Sql.selectProjectId projectIdUrl)
            if projectExistsRows.length = 0 then
              pure (.next 404 "Project not found")
            else do
              execute connection (Sql.insertProjectFavorite req.userId projectIdUrl)
              pure (.json 201 "projectAdded"))
          (fun _ => pure (.next 500 "Could not add this project to favorites")))
        (release connection)

/-! ## Example data -/

/-- The scenario of the specification: user 1 owns project 7 with technology 10,
user 2 owns project 8, user 2 has user 1 and project 7 among the favorites, user 1
has project 8 among the favorites. -/
def scenarioStore : Store where
  users := [⟨1, "ann", "ann@example.org"⟩, ⟨2, "bob", "bob@example.org"⟩]
  projects := [⟨7, "P", "first project of ann", 1⟩, ⟨8, "Q", "first project of bob", 2⟩]
  projects_technologies := [⟨7, 10⟩, ⟨8, 10⟩]
  users_favorites := [⟨2, 1⟩]
  projects_favorites := [⟨2, 7⟩, ⟨1, 8⟩]

/-- The scenario before any request: no open transaction, no call made. -/
def scenarioWorld : World where
  committed := scenarioStore
  tx := none
  autoInc := 9
  calls := 0
  acquired := 0
  released := 0

/-- The request of the authenticated user `user` whose `uid` parameter is `target`
and whose body names `user`; the validation passes. -/
def userRequest (user target : Nat) : Request where
  uid := some target
  userId := user
  authUserId := user

/-- The request of the authenticated user `user` whose `pid` parameter is `project`
and whose body names `user`; the validation passes. -/
def projectRequest (user project : Nat) : Request where
  pid := some project
  userId := user
  authUserId := user

/-- The scenario without any user favorite. -/
def quietWorld : World where
  committed := { scenarioStore with users_favorites := [] }
  tx := none
  autoInc := 9
  calls := 0
  acquired := 0
  released := 0

/-- User 1 asks for the deletion of user 1. -/
def requestDeleteUser1 : Request where
  uid := some 1
  userId := 1
  authUserId := 1

/-- User 1 adds a project with the technologies 10 and 11. -/
def requestAddProject : Request where
  userId := 1
  authUserId := 1
  projectName := "R"
  projectDesc := "second project of ann"
  technologies := some [10, 11]

/-- User 1 edits project 7: new name, new description, technology 11 only. -/
def requestEditProject7 : Request where
  pid := some 7
  userId := 1
  authUserId := 1
  projectName := "P2"
  projectDesc := "renamed project of ann"
  technologies := some [11]

/-- User 2 adds project 7 to the favorites (it is there already). -/
def requestFavoriteProject7 : Request where
  pid := some 7
  userId := 2
  authUserId := 2

/-- User 1 adds user 2 to the favorites. -/
def requestFavoriteUser2 : Request where
  uid := some 2
  userId := 1
  authUserId := 1

/-- User 1 names user 1 as the favorite. -/
def requestFavoriteSelf : Request where
  uid := some 1
  userId := 1
  authUserId := 1

/-- User 1 edits project 7 and names technology 10 twice. -/
def requestEditProject7Repeated : Request where
  pid := some 7
  userId := 1
  authUserId := 1
  projectName := "P"
  projectDesc := "first project of ann"
  technologies := some [10, 10]

/-- User 1 edits project 7 and names the technologies 10 and 11. -/
def requestEditProject7Pair : Request where
  pid := some 7
  userId := 1
  authUserId := 1
  projectName := "P"
  projectDesc := "first project of ann"
  technologies := some [10, 11]

/-- One joined row of `getProjectsFavorites`: project 1 with the technology of id 0. -/
def rowsWithTechnologyZero : List FavoriteProjectsRow :=
  [{ project_id := 1, project_name := "p", project_description := "d",
     project_updatedAt := 0, creator_id := 5, technology_id := some 0,
     technology_name := some "zero" }]

/-! ## Specifications of computations inside a transaction -/

/-- A computation that behaves like a sequence of statements: it leaves the pool
counters alone, inside a transaction it stays inside it and leaves the durable
state alone, when it returns no call it made has failed (so the run is the
fault-free run), and when it throws, it throws the driver error of its last call. -/
def Regular {α : Type} (m : M α) : Prop :=
  ∀ (f : Faults) (w : World),
    (m f w).2.acquired = w.acquired ∧ (m f w).2.released = w.released ∧
    (m f w).2.tx.isSome = w.tx.isSome ∧
    (w.tx.isSome = true → (m f w).2.committed = w.committed) ∧
    w.calls ≤ (m f w).2.calls ∧
    (∀ a, (m f w).1 = .ok a →
      (∀ i, w.calls ≤ i → i < (m f w).2.calls → f i = false) ∧ m noFaults w = m f w) ∧
    (∀ e, (m f w).1 = .error e →
      e = .driver ∧ w.calls < (m f w).2.calls ∧ f ((m f w).2.calls - 1) = true)

/-- A computation that runs statements inside a transaction and ends with the
commit: when it returns no call it made has failed, and when it throws, it
throws the driver error of its last call and the durable state is untouched. -/
def Committing {α : Type} (m : M α) : Prop :=
  ∀ (f : Faults) (w : World), w.tx.isSome = true →
    (m f w).2.acquired = w.acquired ∧ (m f w).2.released = w.released ∧
    w.calls ≤ (m f w).2.calls ∧
    (∀ a, (m f w).1 = .ok a →
      (∀ i, w.calls ≤ i → i < (m f w).2.calls → f i = false) ∧ m noFaults w = m f w) ∧
    (∀ e, (m f w).1 = .error e →
      e = .driver ∧ (m f w).2.committed = w.committed ∧
      w.calls < (m f w).2.calls ∧ f ((m f w).2.calls - 1) = true)

/-- Outside a transaction the computation stays outside and keeps the property
`I` of the durable state. -/
def Preserves {α : Type} (I : Store → Prop) (m : M α) : Prop :=
  ∀ (f : Faults) (w : World), w.tx = none → I w.committed →
    (m f w).2.tx = none ∧ I (m f w).2.committed

/-- A computation whose returns do not depend on the fault plan: when it returns
under some plan, it returns the same under the plan without faults. -/
def OkStable {α : Type} (m : M α) : Prop :=
  ∀ (f : Faults) (w w1 : World) (a : α), m f w = (.ok a, w1) → m noFaults w = (.ok a, w1)

/-- A handler whose success answers do not depend on the fault plan. -/
def JsonStable (m : M Outcome) : Prop :=
  ∀ (f : Faults) (w w1 : World) (s : Nat) (key : String),
    m f w = (.ok (.json s key), w1) → m noFaults w = (.ok (.json s key), w1)

/-- A computation that never ends with a success answer. -/
def NoJson (m : M Outcome) : Prop :=
  ∀ (f : Faults) (w w1 : World) (s : Nat) (key : String), m f w ≠ (.ok (.json s key), w1)

/-- The computation keeps the property `I` of the durable state and of the working
copy of the open transaction, whatever calls fail. -/
def Keeps {α : Type} (I : Store → Prop) (m : M α) : Prop :=
  ∀ (f : Faults) (w : World), I w.committed → (∀ s, w.tx = some s → I s) →
    I (m f w).2.committed ∧ (∀ s, (m f w).2.tx = some s → I s)

/-! # Theorems -/

/-! ## Stepping through computations -/

theorem bind_eq {α β : Type} (m : M α) (k : α → M β) : (m >>= k) = M.bind m k := rfl

theorem pure_apply {α : Type} (a : α) (f : Faults) (w : World) :
    (pure a : M α) f w = (.ok a, w) := rfl

theorem bind_ok {α β : Type} (m : M α) (k : α → M β) (f : Faults) (w w1 : World) (a : α)
    (h : m f w = (.ok a, w1)) : M.bind m k f w = k a f w1 := by
  unfold M.bind
  rw [h]

theorem bind_error {α β : Type} (m : M α) (k : α → M β) (f : Faults) (w w1 : World)
    (e : Thrown) (h : m f w = (.error e, w1)) : M.bind m k f w = (.error e, w1) := by
  unfold M.bind
  rw [h]

theorem call_ok {α : Type} (eff : World → α × World) (f : Faults) (w : World)
    (h : f w.calls = false) :
    call eff f w = (.ok (eff w).1, { (eff w).2 with calls := w.calls + 1 }) := by
  unfold call
  simp [h]

theorem call_error {α : Type} (eff : World → α × World) (f : Faults) (w : World)
    (h : f w.calls = true) :
    call eff f w = (.error .driver, { w with calls := w.calls + 1 }) := by
  unfold call
  simp [h]

theorem failAt_self (k : Nat) : failAt k k = true := by simp [failAt]

theorem failAt_of_ne (k i : Nat) (h : i ≠ k) : failAt k i = false := by simp [failAt, h]

theorem eq_of_failAt (k i : Nat) (h : failAt k i = true) : i = k := by
  simpa [failAt] using h

/-! ## Regular and committing computations -/

theorem regular_pure {α : Type} (a : α) : Regular (pure a : M α) := by
  intro f w
  refine ⟨rfl, rfl, rfl, fun _ => rfl, le_refl _, ?_, ?_⟩
  · intro b _
    exact ⟨fun i h1 h2 => absurd h2 (Nat.not_lt.2 h1), rfl⟩
  · intro e he
    cases he

theorem regular_call {α : Type} (eff : World → α × World)
    (hacq : ∀ w, (eff w).2.acquired = w.acquired)
    (hrel : ∀ w, (eff w).2.released = w.released)
    (htx : ∀ w, (eff w).2.tx.isSome = w.tx.isSome)
    (hcom : ∀ w, w.tx.isSome = true → (eff w).2.committed = w.committed) :
    Regular (call eff) := by
  intro f w
  by_cases hf : f w.calls = true
  · rw [call_error eff f w hf]
    simp [hf]
  · have hf2 : f w.calls = false := by simpa using hf
    rw [call_ok eff f w hf2, call_ok eff noFaults w rfl]
    refine ⟨hacq w, hrel w, htx w, hcom w, by simp, ?_, by simp⟩
    intro a _
    refine ⟨?_, rfl⟩
    intro i h1 h2
    have : i = w.calls := by simp at h2; omega
    rw [this, hf2]

theorem regular_execute {α : Type} (c : Connection) (q : Store → α × Store) :
    Regular (execute c q) := by
  unfold execute
  apply regular_call <;> intro w <;> unfold World.setView <;> cases w.tx <;> simp

theorem regular_executeInsertProject (c : Connection) (name description : String) (u : Nat) :
    Regular (executeInsertProject c name description u) := by
  unfold executeInsertProject
  apply regular_call <;> intro w <;> unfold World.setView <;> cases w.tx <;> simp

theorem regular_bind {α β : Type} (m : M α) (k : α → M β) (hm : Regular m)
    (hk : ∀ a, Regular (k a)) : Regular (M.bind m k) := by
  intro f w
  obtain ⟨h1, h2, h3, h4, h5, h6, h7⟩ := hm f w
  cases hr : m f w with
  | mk res w1 =>
    rw [hr] at h1 h2 h3 h4 h5 h6 h7
    cases res with
    | error e =>
      rw [bind_error m k f w w1 e hr]
      refine ⟨h1, h2, h3, h4, h5, ?_, ?_⟩
      · intro a ha
        cases ha
      · intro e2 he2
        cases he2
        exact h7 e rfl
    | ok a =>
      obtain ⟨g1, g2, g3, g4, g5, g6, g7⟩ := hk a f w1
      obtain ⟨h6a, h6b⟩ := h6 a rfl
      have hnf : m noFaults w = (.ok a, w1) := by rw [h6b]
      rw [bind_ok m k f w w1 a hr, bind_ok m k noFaults w w1 a hnf]
      dsimp only at h1 h2 h3 h4 h5 h6a
      refine ⟨by rw [g1, h1], by rw [g2, h2], by rw [g3, h3], ?_, le_trans h5 g5, ?_, ?_⟩
      · intro htx
        rw [g4 (by rw [h3, htx]), h4 htx]
      · intro b hb
        obtain ⟨g6a, g6b⟩ := g6 b hb
        refine ⟨?_, g6b⟩
        intro i hi1 hi2
        by_cases hlt : i < w1.calls
        · exact h6a i hi1 hlt
        · exact g6a i (by omega) hi2
      · intro e he
        obtain ⟨g7a, g7b, g7c⟩ := g7 e he
        exact ⟨g7a, by omega, g7c⟩

theorem regular_forEach {α : Type} (xs : List α) (body : α → M Unit)
    (hb : ∀ x, Regular (body x)) : Regular (forEach xs body) := by
  induction xs with
  | nil => exact regular_pure ()
  | cons x xs ih =>
    unfold forEach
    exact regular_bind _ _ (hb x) (fun _ => ih)

theorem committing_commit (c : Connection) (o : Outcome) :
    Committing (M.bind (commit c) (fun _ => (pure o : M Outcome))) := by
  intro f w htx
  unfold commit
  by_cases hf : f w.calls = true
  · rw [bind_error _ _ f w _ _ (call_error _ f w hf)]
    simp [hf]
  · have hf2 : f w.calls = false := by simpa using hf
    rw [bind_ok _ _ f w _ _ (call_ok _ f w hf2),
      bind_ok _ _ noFaults w _ _ (call_ok _ noFaults w rfl)]
    refine ⟨?_, ?_, ?_, ?_, ?_⟩
    · simp [pure_apply]
    · simp [pure_apply]
    · simp [pure_apply]
    · intro a _
      refine ⟨?_, by simp [pure_apply]⟩
      intro i h1 h2
      have : i = w.calls := by simp [pure_apply] at h2; omega
      rw [this, hf2]
    · simp [pure_apply]

theorem committing_bind {α β : Type} (m : M α) (k : α → M β) (hm : Regular m)
    (hk : ∀ a, Committing (k a)) : Committing (M.bind m k) := by
  intro f w htx
  obtain ⟨h1, h2, h3, h4, h5, h6, h7⟩ := hm f w
  cases hr : m f w with
  | mk res w1 =>
    rw [hr] at h1 h2 h3 h4 h5 h6 h7
    cases res with
    | error e =>
      rw [bind_error m k f w w1 e hr]
      obtain ⟨h7a, h7b, h7c⟩ := h7 e rfl
      refine ⟨h1, h2, h5, ?_, ?_⟩
      · intro a ha
        cases ha
      · intro e2 he2
        cases he2
        exact ⟨h7a, h4 htx, h7b, h7c⟩
    | ok a =>
      dsimp only at h1 h2 h3 h4 h5
      obtain ⟨g1, g2, g5, g6, g7⟩ := hk a f w1 (by rw [h3, htx])
      obtain ⟨h6a, h6b⟩ := h6 a rfl
      have hnf : m noFaults w = (.ok a, w1) := by rw [h6b]
      rw [bind_ok m k f w w1 a hr, bind_ok m k noFaults w w1 a hnf]
      dsimp only at h6a
      refine ⟨by rw [g1, h1], by rw [g2, h2], le_trans h5 g5, ?_, ?_⟩
      · intro b hb
        obtain ⟨g6a, g6b⟩ := g6 b hb
        refine ⟨?_, g6b⟩
        intro i hi1 hi2
        by_cases hlt : i < w1.calls
        · exact h6a i hi1 hlt
        · exact g6a i (by omega) hi2
      · intro e he
        obtain ⟨g7a, g7b, g7c, g7d⟩ := g7 e he
        exact ⟨g7a, by rw [g7b, h4 htx], by omega, g7d⟩


/-! ## Transaction blocks -/

theorem runHandler_snd (m : M Outcome) (f : Faults) (w : World) :
    (runHandler m f w).2 = (m f w).2 := by
  unfold runHandler
  cases h : m f w with
  | mk res w1 => cases res <;> rfl

theorem runHandler_fst (m : M Outcome) (f : Faults) (w : World) :
    (runHandler m f w).1 =
      match (m f w).1 with
      | .ok o => o
      | .error e => .rejected e := by
  unfold runHandler
  cases h : m f w with
  | mk res w1 => cases res <;> rfl

theorem view_of_tx_none (w : World) (h : w.tx = none) : w.view = w.committed := by
  unfold World.view
  rw [h]
  rfl

/-- Acquiring a connection and opening a transaction, when neither call fails. -/
theorem acquire_begin {β : Type} (kont : Connection → M β) (f : Faults) (w : World)
    (h0 : f w.calls = false) (h1 : f (w.calls + 1) = false) :
    M.bind getConnection (fun c => M.bind (beginTransaction c) (fun _ => kont c)) f w =
      kont ⟨w.acquired⟩ f
        ⟨w.view, some w.view, w.autoInc, w.calls + 2, w.acquired + 1, w.released⟩ := by
  unfold getConnection beginTransaction
  rw [bind_ok _ _ f w _ _ (call_ok _ f w h0)]
  rw [bind_ok _ _ f _ _ _ (call_ok _ f _ h1)]
  rfl

/-- A transaction block under a single fault: when the failing call is one the
fault-free run of the block makes, the block rolls back and reports the 500. -/
theorem txBlock_failAt (body : M Outcome) (hb : Committing body) (c : Connection)
    (msg : String) (w : World) (htx : w.tx.isSome = true) (K : Nat) (hK : w.calls ≤ K)
    (hissued : K < (tryFinally (tryCatch body
        (fun _ => M.bind (rollback c) (fun _ => pure (.next 500 msg)))) (release c)
        noFaults w).2.calls) :
    (tryFinally (tryCatch body
        (fun _ => M.bind (rollback c) (fun _ => pure (.next 500 msg)))) (release c)
        (failAt K) w).1 = .ok (.next 500 msg) ∧
    (tryFinally (tryCatch body
        (fun _ => M.bind (rollback c) (fun _ => pure (.next 500 msg)))) (release c)
        (failAt K) w).2.committed = w.committed ∧
    (tryFinally (tryCatch body
        (fun _ => M.bind (rollback c) (fun _ => pure (.next 500 msg)))) (release c)
        (failAt K) w).2.tx = none := by
  obtain ⟨-, -, -, hok, herr⟩ := hb (failAt K) w htx
  unfold tryFinally tryCatch release at hissued ⊢
  cases hr : body (failAt K) w with
  | mk res w1 =>
    rw [hr] at hok herr
    cases res with
    | ok o =>
      exfalso
      obtain ⟨hnone, hnf⟩ := hok o rfl
      rw [hnf] at hissued
      have := hnone K hK (by simpa using hissued)
      rw [failAt_self] at this
      cases this
    | error e =>
      obtain ⟨-, hcom, hlt, hlast⟩ := herr e rfl
      dsimp only at hcom hlt hlast
      have hcalls : w1.calls - 1 = K := eq_of_failAt _ _ hlast
      have hrb : failAt K w1.calls = false := failAt_of_ne _ _ (by omega)
      unfold rollback
      simp only [bind_ok _ _ (failAt K) w1 _ _ (call_ok _ (failAt K) w1 hrb), pure_apply]
      exact ⟨trivial, hcom, trivial⟩

theorem getProjectCreatorId_ok (p : Nat) (f : Faults) (w : World)
    (h0 : f w.calls = false) (h1 : f (w.calls + 1) = false) :
    getProjectCreatorId p f w =
      (match (w.view.projects.filter (fun r => r.id == p)).map (fun r => r.fk_user) with
        | [] => .error (.http 404 "Project not found")
        | fk_user :: _ => .ok fk_user,
       ⟨w.committed, w.tx, w.autoInc, w.calls + 2, w.acquired + 1, w.released + 1⟩) := by
  obtain ⟨committed, tx, autoInc, calls, acquired, released⟩ := w
  dsimp only at h0 h1
  unfold getProjectCreatorId getConnection tryFinally tryCatch execute release
  simp only [bind_eq, M.bind, call, h0, h1, World.view, World.setView,
    Sql.selectCreatorOfProject]
  cases tx <;> simp only [Option.getD] <;>
    cases hrows : (List.filter (fun r => r.id == p) _).map (fun r : ProjectRow => r.fk_user) <;>
    simp [hrows, throwJs, pure_apply, h0, h1]

/-- A first statement of a `try` block that succeeds. -/
theorem tryBlock_bind_ok {α β : Type} (m : M α) (k : α → M β) (h : Thrown → M β)
    (fin : M Unit) (f : Faults) (w w1 : World) (a : α) (hm : m f w = (.ok a, w1)) :
    tryFinally (tryCatch (M.bind m k) h) fin f w = tryFinally (tryCatch (k a) h) fin f w1 := by
  unfold tryFinally tryCatch
  rw [bind_ok m k f w w1 a hm]

theorem editProject_failAt (req : Request) (w : World) (hw : w.tx = none) (k : Nat)
    (hk : 4 ≤ k)
    (hissued : w.calls + k < (runHandler (editProject req) noFaults w).2.calls) :
    (runHandler (editProject req) (failAt (w.calls + k)) w).1 =
        .next 500 "Could not edit the project" ∧
    (runHandler (editProject req) (failAt (w.calls + k)) w).2.committed = w.committed ∧
    (runHandler (editProject req) (failAt (w.calls + k)) w).2.tx = none := by
  rw [runHandler_snd] at hissued ⊢
  rw [runHandler_fst]
  unfold editProject at hissued ⊢
  cases hpid : req.pid with
  | none => simp [hpid, pure_apply] at hissued
  | some projectId =>
    simp only [hpid] at hissued ⊢
    by_cases hz : projectId = 0
    · simp [hz, pure_apply] at hissued
    by_cases hv : req.validationErrors ≠ []
    · simp [hz, hv, pure_apply] at hissued
    simp only [hz, hv, if_false, bind_eq] at hissued ⊢
    have hc := getProjectCreatorId_ok projectId (failAt (w.calls + k)) w
      (failAt_of_ne _ _ (by omega)) (failAt_of_ne _ _ (by omega))
    have hc0 := getProjectCreatorId_ok projectId noFaults w rfl rfl
    cases hrows : (w.view.projects.filter (fun r => r.id == projectId)).map
        (fun r => r.fk_user) with
    | nil =>
      rw [hrows] at hc0
      rw [bind_error _ _ _ _ _ _ hc0] at hissued
      simp at hissued
      omega
    | cons creatorId rest =>
      rw [hrows] at hc hc0
      rw [bind_ok _ _ _ _ _ _ hc0] at hissued
      rw [bind_ok _ _ _ _ _ _ hc]
      by_cases hauth : req.userId ≠ req.authUserId ∨ req.userId ≠ creatorId
      · simp [hauth, pure_apply] at hissued
        omega
      simp only [hauth, if_false, bind_eq] at hissued ⊢
      rw [acquire_begin _ _ _ rfl rfl] at hissued
      rw [acquire_begin _ _ _ (failAt_of_ne _ _ (by simp; omega))
        (failAt_of_ne _ _ (by simp; omega))]
      obtain ⟨r1, r2, r3⟩ := txBlock_failAt _
        (by
          apply committing_bind _ _ (regular_execute _ _)
          intro _
          apply committing_bind _ _ (regular_execute _ _)
          intro _
          apply committing_bind
          · split
            · exact regular_forEach _ _ (fun _ => regular_execute _ _)
            · exact regular_pure ()
          · intro _
            exact committing_commit _ _)
        _ _ _ (by rfl) (w.calls + k) (by simp; omega) hissued
      rw [r1, r2, r3]
      exact ⟨rfl, by simp [World.view, hw], rfl⟩

theorem deleteUser_failAt (req : Request) (w : World) (hw : w.tx = none) (k : Nat)
    (hk : 1 ≤ k)
    (hissued : w.calls + k < (runHandler (deleteUser req) noFaults w).2.calls) :
    (runHandler (deleteUser req) (failAt (w.calls + k)) w).1 =
        .next 500 "Error deleting user and associated data" ∧
    (runHandler (deleteUser req) (failAt (w.calls + k)) w).2.committed = w.committed ∧
    (runHandler (deleteUser req) (failAt (w.calls + k)) w).2.tx = none := by
  rw [runHandler_snd] at hissued ⊢
  rw [runHandler_fst]
  unfold deleteUser at hissued ⊢
  cases huid : req.uid with
  | none => simp [huid, pure_apply] at hissued
  | some userIdUrl =>
    simp only [huid] at hissued ⊢
    by_cases hz : userIdUrl = 0
    · simp [hz, pure_apply] at hissued
    by_cases hv : req.validationErrors ≠ []
    · simp [hz, hv, pure_apply] at hissued
    by_cases hauth : userIdUrl ≠ req.authUserId ∨ req.userId ≠ req.authUserId
    · simp [hz, hv, hauth, pure_apply] at hissued
    simp only [hz, hv, hauth, if_false, bind_eq] at hissued ⊢
    have hg : getConnection (failAt (w.calls + k)) w =
        (.ok ⟨w.acquired⟩,
          ⟨w.committed, w.tx, w.autoInc, w.calls + 1, w.acquired + 1, w.released⟩) :=
      call_ok _ _ _ (failAt_of_ne _ _ (by omega))
    have hg0 : getConnection noFaults w =
        (.ok ⟨w.acquired⟩,
          ⟨w.committed, w.tx, w.autoInc, w.calls + 1, w.acquired + 1, w.released⟩) :=
      call_ok _ _ _ rfl
    rw [hg0] at hissued
    rw [hg]
    dsimp only at hissued ⊢
    by_cases hk1 : k = 1
    · subst hk1
      have hbegin : beginTransaction ⟨w.acquired⟩ (failAt (w.calls + 1))
          ⟨w.committed, w.tx, w.autoInc, w.calls + 1, w.acquired + 1, w.released⟩ =
          (.error .driver,
            ⟨w.committed, w.tx, w.autoInc, w.calls + 2, w.acquired + 1, w.released⟩) :=
        call_error _ _ _ (failAt_self _)
      unfold tryFinally tryCatch release rollback
      rw [bind_error _ _ _ _ _ _ hbegin]
      dsimp only
      rw [bind_ok _ _ _ _ _ _ (call_ok _ _ _ (failAt_of_ne _ _ (by simp)))]
      exact ⟨rfl, rfl, rfl⟩
    · have hbegin : ∀ f : Faults, f (w.calls + 1) = false →
          beginTransaction ⟨w.acquired⟩ f
            ⟨w.committed, w.tx, w.autoInc, w.calls + 1, w.acquired + 1, w.released⟩ =
          (.ok (),
            ⟨w.committed, some w.committed, w.autoInc, w.calls + 2, w.acquired + 1,
              w.released⟩) := by
        intro f hf
        unfold beginTransaction
        rw [call_ok _ _ _ hf]
        simp [World.view, hw]
      rw [tryBlock_bind_ok _ _ _ _ _ _ _ _ (hbegin noFaults rfl)] at hissued
      rw [tryBlock_bind_ok _ _ _ _ _ _ _ _
        (hbegin (failAt (w.calls + k)) (failAt_of_ne _ _ (by omega)))]
      obtain ⟨r1, r2, r3⟩ := txBlock_failAt _
        (by
          apply committing_bind _ _ (regular_execute _ _)
          intro _
          apply committing_bind _ _ (regular_execute _ _)
          intro projects
          apply committing_bind _ _ (regular_forEach _ _ (fun _ => regular_execute _ _))
          intro _
          apply committing_bind _ _ (regular_execute _ _)
          intro _
          apply committing_bind _ _ (regular_execute _ _)
          intro _
          exact committing_commit _ _)
        _ _ _ (by rfl) (w.calls + k) (by simp; omega) hissued
      rw [r1, r2, r3]
      exact ⟨rfl, rfl, rfl⟩

theorem addProject_failAt (req : Request) (w : World) (hw : w.tx = none) (k : Nat)
    (hk : 2 ≤ k)
    (hissued : w.calls + k < (runHandler (addProject req) noFaults w).2.calls) :
    (runHandler (addProject req) (failAt (w.calls + k)) w).1 =
        .next 500 "Could not add the project" ∧
    (runHandler (addProject req) (failAt (w.calls + k)) w).2.committed = w.committed ∧
    (runHandler (addProject req) (failAt (w.calls + k)) w).2.tx = none := by
  rw [runHandler_snd] at hissued ⊢
  rw [runHandler_fst]
  unfold addProject at hissued ⊢
  by_cases hv : req.validationErrors ≠ []
  · simp [hv, pure_apply] at hissued
  by_cases ha : req.userId ≠ req.authUserId
  · simp [hv, ha, pure_apply] at hissued
  simp only [hv, ha, if_false, bind_eq] at hissued ⊢
  rw [acquire_begin _ _ _ rfl rfl] at hissued
  rw [acquire_begin _ _ _ (failAt_of_ne _ _ (by omega)) (failAt_of_ne _ _ (by omega))]
  obtain ⟨r1, r2, r3⟩ := txBlock_failAt _
    (by
      apply committing_bind _ _ (regular_executeInsertProject _ _ _ _)
      intro projectId
      apply committing_bind
      · split
        · exact regular_forEach _ _ (fun _ => regular_execute _ _)
        · exact regular_pure ()
      · intro _
        exact committing_commit _ _)
    _ _ _ (by rfl) (w.calls + k) (by simp; omega) hissued
  rw [r1, r2, r3]
  exact ⟨rfl, view_of_tx_none w hw, rfl⟩

/-! ## Handlers outside a transaction -/

theorem preserves_pure {α : Type} (I : Store → Prop) (a : α) : Preserves I (pure a : M α) :=
  fun _ _ h1 h2 => ⟨h1, h2⟩

theorem preserves_throwJs {α : Type} (I : Store → Prop) (e : Thrown) :
    Preserves I (throwJs e : M α) :=
  fun _ _ h1 h2 => ⟨h1, h2⟩

theorem preserves_bind {α β : Type} (I : Store → Prop) (m : M α) (k : α → M β)
    (hm : Preserves I m) (hk : ∀ a, Preserves I (k a)) : Preserves I (M.bind m k) := by
  intro f w h1 h2
  obtain ⟨g1, g2⟩ := hm f w h1 h2
  unfold M.bind
  cases hr : m f w with
  | mk res w1 =>
    rw [hr] at g1 g2
    cases res with
    | ok a => exact hk a f w1 g1 g2
    | error e => exact ⟨g1, g2⟩

theorem preserves_tryCatch {α : Type} (I : Store → Prop) (body : M α) (h : Thrown → M α)
    (hb : Preserves I body) (hh : ∀ e, Preserves I (h e)) : Preserves I (tryCatch body h) := by
  intro f w h1 h2
  obtain ⟨g1, g2⟩ := hb f w h1 h2
  unfold tryCatch
  cases hr : body f w with
  | mk res w1 =>
    rw [hr] at g1 g2
    cases res with
    | ok a => exact ⟨g1, g2⟩
    | error e => exact hh e f w1 g1 g2

theorem preserves_tryFinally {α : Type} (I : Store → Prop) (body : M α) (fin : M Unit)
    (hb : Preserves I body) (hf : Preserves I fin) : Preserves I (tryFinally body fin) := by
  intro f w h1 h2
  obtain ⟨g1, g2⟩ := hb f w h1 h2
  unfold tryFinally
  cases hr : body f w with
  | mk res w1 =>
    rw [hr] at g1 g2
    obtain ⟨k1, k2⟩ := hf f w1 g1 g2
    dsimp only
    cases hr2 : fin f w1 with
    | mk res2 w2 =>
      rw [hr2] at k1 k2
      cases res2 <;> exact ⟨k1, k2⟩

theorem preserves_call {α : Type} (I : Store → Prop) (eff : World → α × World)
    (h : ∀ w, w.tx = none → I w.committed → (eff w).2.tx = none ∧ I (eff w).2.committed) :
    Preserves I (call eff) := by
  intro f w h1 h2
  unfold call
  split
  · exact ⟨h1, h2⟩
  · exact h w h1 h2

theorem preserves_getConnection (I : Store → Prop) : Preserves I getConnection :=
  preserves_call I _ (fun _ h1 h2 => ⟨h1, h2⟩)

theorem preserves_release (I : Store → Prop) (c : Connection) : Preserves I (release c) :=
  fun _ _ h1 h2 => ⟨h1, h2⟩

theorem preserves_execute {α : Type} (I : Store → Prop) (c : Connection)
    (q : Store → α × Store) (hq : ∀ s, I s → I (q s).2) : Preserves I (execute c q) := by
  apply preserves_call
  intro w h1 h2
  simp only [World.setView, World.view, h1, Option.getD]
  exact ⟨trivial, hq _ h2⟩

theorem addUserFav_preserves (I : Store → Prop) (req : Request)
    (hI : ∀ s b, req.uid = some b → req.userId ≠ b → I s →
      I (Sql.insertUserFavorite req.userId b s).2) :
    Preserves I (addUserFav req) := by
  unfold addUserFav
  split
  · exact preserves_pure _ _
  · rename_i userIdUrl huid
    split
    · exact preserves_pure _ _
    split
    · exact preserves_pure _ _
    split
    · exact preserves_pure _ _
    split
    · exact preserves_pure _ _
    rename_i hself
    apply preserves_bind _ _ _ (preserves_getConnection _)
    intro c
    apply preserves_tryFinally _ _ _ _ (preserves_release _ _)
    apply preserves_tryCatch
    · apply preserves_bind _ _ _ (preserves_execute _ _ _ (fun _ h => h))
      intro _
      apply preserves_bind _ _ _ (preserves_execute _ _ _ (fun _ h => h))
      intro _
      split
      · exact preserves_pure _ _
      apply preserves_bind _ _ _ (preserves_execute _ _ _ (fun _ h => h))
      intro _
      split
      · exact preserves_pure _ _
      apply preserves_bind _ _ _ (preserves_execute _ _ _ (hI · userIdUrl huid hself))
      intro _
      exact preserves_pure _ _
    · intro _
      exact preserves_pure _ _

theorem addUserFav_no_self_edge (f : Faults) (w : World) (req : Request) (hw : w.tx = none) :
    ∀ r ∈ (runHandler (addUserFav req) f w).2.committed.users_favorites,
      r.user_id = r.favUser_id → r ∈ w.committed.users_favorites := by
  rw [runHandler_snd]
  refine (addUserFav_preserves
    (fun s => ∀ r ∈ s.users_favorites, r.user_id = r.favUser_id → r ∈ w.committed.users_favorites)
    req ?_ f w hw (fun r hr _ => hr)).2
  intro s b _ hne hs r hr heq
  simp only [Sql.insertUserFavorite, List.mem_append, List.mem_singleton] at hr
  rcases hr with hr | hr
  · exact hs r hr heq
  · subst hr
    exact absurd heq hne
theorem filter_ne_nil_of_exists {α : Type} (l : List α) (p : α → Bool)
    (h : ∃ x ∈ l, p x = true) : l.filter p ≠ [] := by
  obtain ⟨x, hx, hp⟩ := h
  intro hnil
  have : x ∈ l.filter p := List.mem_filter.2 ⟨hx, hp⟩
  rw [hnil] at this
  cases this

/-- The fault-free run of `addUserFav` on a request that passes the guards, for two
existing users and an absent edge: the edge is appended and the answer is 201. -/
theorem addUserFav_absent (w : World) (req : Request) (a b : Nat)
    (hw : w.tx = none) (hb : b ≠ 0) (hab : a ≠ b)
    (huid : req.uid = some b) (hval : req.validationErrors = [])
    (hbody : req.userId = a) (hauth : req.authUserId = a)
    (hea : ∃ u ∈ w.committed.users, u.id = a) (heb : ∃ u ∈ w.committed.users, u.id = b)
    (habsent : ∀ r ∈ w.committed.users_favorites, ¬(r.user_id = a ∧ r.favUser_id = b)) :
    runHandler (addUserFav req) noFaults w =
      (.json 201 "userAdded",
        ⟨{ w.committed with
            users_favorites := w.committed.users_favorites ++ [⟨a, b⟩] },
          none, w.autoInc, w.calls + 5, w.acquired + 1, w.released + 1⟩) := by
  have h1 : w.committed.users.filter (fun r => r.id == a) ≠ [] :=
    filter_ne_nil_of_exists _ _ (by simpa using hea)
  have h2 : w.committed.users.filter (fun r => r.id == b) ≠ [] :=
    filter_ne_nil_of_exists _ _ (by simpa using heb)
  have h3 : w.committed.users_favorites.filter
      (fun r => r.user_id == a && r.favUser_id == b) = [] := by
    rw [List.filter_eq_nil_iff]
    intro r hr
    simpa using habsent r hr
  obtain ⟨committed, tx, autoInc, calls, acquired, released⟩ := w
  dsimp only at hw h1 h2 h3
  subst hw
  simp [runHandler, addUserFav, huid, hb, hval, hbody, hauth, hab, bind_eq, M.bind, call,
    noFaults, getConnection, execute, tryFinally, tryCatch, release, World.view,
    World.setView, Sql.selectUserId, Sql.selectUserFavorite, Sql.insertUserFavorite,
    pure_apply, h1, h2, h3]
/-- The fault-free run of `addUserFav` on a request that passes the guards, for two
existing users and an edge that is there: nothing is written, the answer is 422. -/
theorem addUserFav_present (w : World) (req : Request) (a b : Nat)
    (hw : w.tx = none) (hb : b ≠ 0) (hab : a ≠ b)
    (huid : req.uid = some b) (hval : req.validationErrors = [])
    (hbody : req.userId = a) (hauth : req.authUserId = a)
    (hea : ∃ u ∈ w.committed.users, u.id = a) (heb : ∃ u ∈ w.committed.users, u.id = b)
    (hpresent : ∃ r ∈ w.committed.users_favorites, r.user_id = a ∧ r.favUser_id = b) :
    runHandler (addUserFav req) noFaults w =
      (.next 422 "This relationship already exists.",
        ⟨w.committed, none, w.autoInc, w.calls + 4, w.acquired + 1, w.released + 1⟩) := by
  have h1 : w.committed.users.filter (fun r => r.id == a) ≠ [] :=
    filter_ne_nil_of_exists _ _ (by simpa using hea)
  have h2 : w.committed.users.filter (fun r => r.id == b) ≠ [] :=
    filter_ne_nil_of_exists _ _ (by simpa using heb)
  have h3 : w.committed.users_favorites.filter
      (fun r => r.user_id == a && r.favUser_id == b) ≠ [] :=
    filter_ne_nil_of_exists _ _ (by simpa using hpresent)
  obtain ⟨committed, tx, autoInc, calls, acquired, released⟩ := w
  dsimp only at hw h1 h2 h3
  subst hw
  simp [runHandler, addUserFav, huid, hb, hval, hbody, hauth, hab, bind_eq, M.bind, call,
    noFaults, getConnection, execute, tryFinally, tryCatch, release, World.view,
    World.setView, Sql.selectUserId, Sql.selectUserFavorite, Sql.insertUserFavorite,
    pure_apply, h1, h2, h3, List.length_pos]

/-! ## Successful runs are fault-free runs -/

theorem okStable_pure {α : Type} (a : α) : OkStable (pure a : M α) :=
  fun _ _ _ _ h => h

theorem okStable_throwJs {α : Type} (e : Thrown) : OkStable (throwJs e : M α) :=
  fun _ _ _ _ h => h

theorem okStable_call {α : Type} (eff : World → α × World) : OkStable (call eff) := by
  intro f w w1 a h
  by_cases hf : f w.calls = true
  · rw [call_error eff f w hf] at h
    cases h
  · rw [call_ok eff f w (by simpa using hf)] at h
    rw [call_ok eff noFaults w rfl]
    exact h

theorem okStable_bind {α β : Type} (m : M α) (k : α → M β) (hm : OkStable m)
    (hk : ∀ a, OkStable (k a)) : OkStable (M.bind m k) := by
  intro f w w1 b h
  cases hr : m f w with
  | mk res w2 =>
    cases res with
    | error e =>
      rw [bind_error m k f w w2 e hr] at h
      cases h
    | ok a =>
      rw [bind_ok m k f w w2 a hr] at h
      rw [bind_ok m k noFaults w w2 a (hm f w w2 a hr)]
      exact hk a f w2 w1 b h

theorem okStable_forEach {α : Type} (xs : List α) (body : α → M Unit)
    (hb : ∀ x, OkStable (body x)) : OkStable (forEach xs body) := by
  induction xs with
  | nil => exact okStable_pure ()
  | cons x xs ih =>
    unfold forEach
    exact okStable_bind _ _ (hb x) (fun _ => ih)

theorem okStable_tryFinally_release {α : Type} (body : M α) (c : Connection)
    (hb : OkStable body) : OkStable (tryFinally body (release c)) := by
  intro f w w1 a h
  unfold tryFinally release at h ⊢
  cases hr : body f w with
  | mk res w2 =>
    rw [hr] at h
    cases res with
    | error e => cases h
    | ok a2 =>
      rw [hb f w w2 a2 hr]
      exact h

theorem okStable_tryCatch_rethrow {α : Type} (body : M α) (hb : OkStable body) :
    OkStable (tryCatch body (fun error => throwJs error)) := by
  intro f w w1 a h
  unfold tryCatch at h ⊢
  cases hr : body f w with
  | mk res w2 =>
    rw [hr] at h
    cases res with
    | error e => cases h
    | ok a2 =>
      rw [hb f w w2 a2 hr]
      exact h

theorem jsonStable_of_noJson (m : M Outcome) (h : NoJson m) : JsonStable m :=
  fun f w w1 s key hm => absurd hm (h f w w1 s key)

theorem noJson_next (code : Nat) (msg : String) : NoJson (pure (.next code msg) : M Outcome) := by
  intro f w w1 s key h
  cases h

theorem noJson_rollback_next (c : Connection) (code : Nat) (msg : String) :
    NoJson (M.bind (rollback c) (fun _ => (pure (.next code msg) : M Outcome))) := by
  intro f w w1 s key h
  unfold rollback at h
  by_cases hf : f w.calls = true
  · rw [bind_error _ _ f w _ _ (call_error _ f w hf)] at h
    cases h
  · rw [bind_ok _ _ f w _ _ (call_ok _ f w (by simpa using hf))] at h
    cases h

theorem jsonStable_pure (o : Outcome) : JsonStable (pure o : M Outcome) :=
  fun _ _ _ _ _ h => h

theorem jsonStable_bind {α : Type} (m : M α) (k : α → M Outcome) (hm : OkStable m)
    (hk : ∀ a, JsonStable (k a)) : JsonStable (M.bind m k) := by
  intro f w w1 s key h
  cases hr : m f w with
  | mk res w2 =>
    cases res with
    | error e =>
      rw [bind_error m k f w w2 e hr] at h
      cases h
    | ok a =>
      rw [bind_ok m k f w w2 a hr] at h
      rw [bind_ok m k noFaults w w2 a (hm f w w2 a hr)]
      exact hk a f w2 w1 s key h

theorem jsonStable_tryCatch (body : M Outcome) (h : Thrown → M Outcome)
    (hb : JsonStable body) (hh : ∀ e, NoJson (h e)) : JsonStable (tryCatch body h) := by
  intro f w w1 s key hrun
  unfold tryCatch at hrun ⊢
  cases hr : body f w with
  | mk res w2 =>
    rw [hr] at hrun
    cases res with
    | error e => exact absurd hrun (hh e f w2 w1 s key)
    | ok o =>
      cases hrun
      rw [hb f w w1 s key hr]

theorem jsonStable_tryFinally_release (body : M Outcome) (c : Connection)
    (hb : JsonStable body) : JsonStable (tryFinally body (release c)) := by
  intro f w w1 s key h
  unfold tryFinally release at h ⊢
  cases hr : body f w with
  | mk res w2 =>
    rw [hr] at h
    cases res with
    | error e => cases h
    | ok o =>
      cases h
      rw [hb f w w2 s key hr]

theorem okStable_getProjectCreatorId (p : Nat) : OkStable (getProjectCreatorId p) := by
  unfold getProjectCreatorId
  apply okStable_bind _ _ (okStable_call _)
  intro c
  apply okStable_tryFinally_release
  apply okStable_tryCatch_rethrow
  apply okStable_bind _ _ (okStable_call _)
  intro rows
  split
  · exact okStable_throwJs _
  · exact okStable_pure _

theorem jsonStable_editProject (req : Request) : JsonStable (editProject req) := by
  unfold editProject
  split
  · exact jsonStable_pure _
  split
  · exact jsonStable_pure _
  split
  · exact jsonStable_pure _
  apply jsonStable_bind _ _ (okStable_getProjectCreatorId _)
  intro creatorId
  split
  · exact jsonStable_pure _
  apply jsonStable_bind _ _ (okStable_call _)
  intro c
  apply jsonStable_bind _ _ (okStable_call _)
  intro _
  apply jsonStable_tryFinally_release
  apply jsonStable_tryCatch
  · apply jsonStable_bind _ _ (okStable_call _)
    intro _
    apply jsonStable_bind _ _ (okStable_call _)
    intro _
    apply jsonStable_bind
    · split
      · exact okStable_forEach _ _ (fun _ => okStable_call _)
      · exact okStable_pure _
    intro _
    apply jsonStable_bind _ _ (okStable_call _)
    intro _
    exact jsonStable_pure _
  · intro _
    exact noJson_rollback_next _ _ _

theorem jsonStable_addProject (req : Request) : JsonStable (addProject req) := by
  unfold addProject
  split
  · exact jsonStable_pure _
  split
  · exact jsonStable_pure _
  apply jsonStable_bind _ _ (okStable_call _)
  intro c
  apply jsonStable_bind _ _ (okStable_call _)
  intro _
  apply jsonStable_tryFinally_release
  apply jsonStable_tryCatch
  · apply jsonStable_bind _ _ (okStable_call _)
    intro _
    apply jsonStable_bind
    · split
      · exact okStable_forEach _ _ (fun _ => okStable_call _)
      · exact okStable_pure _
    intro _
    apply jsonStable_bind _ _ (okStable_call _)
    intro _
    exact jsonStable_pure _
  · intro _
    exact noJson_rollback_next _ _ _

/-- A handler whose success answers do not depend on the fault plan: a run that
answers with success is the fault-free run. -/
theorem runHandler_success (m : M Outcome) (hm : JsonStable m) (f : Faults) (w : World)
    (s : Nat) (key : String) (h : (runHandler m f w).1 = .json s key) :
    runHandler m f w = runHandler m noFaults w := by
  unfold runHandler at h ⊢
  cases hr : m f w with
  | mk res w1 =>
    rw [hr] at h
    cases res with
    | error e => cases h
    | ok o =>
      dsimp only at h
      subst h
      rw [hm f w w1 s key hr]
/-! ## Fault-free runs of the transactions -/

theorem execute_noFaults {α : Type} (c : Connection) (q : Store → α × Store) (w : World)
    (s : Store) (hw : w.tx = some s) :
    execute c q noFaults w =
      (.ok (q s).1, ⟨w.committed, some (q s).2, w.autoInc, w.calls + 1, w.acquired,
        w.released⟩) := by
  unfold execute
  rw [call_ok _ noFaults w rfl]
  simp [World.view, World.setView, hw]

/-- The fault-free run of the insert loop inside a transaction: one row per
element of the list, appended in order. -/
theorem forEach_insert_noFaults (c : Connection) (p : Nat) (ts : List Nat) (w : World)
    (s : Store) (hw : w.tx = some s) :
    forEach ts (fun techId => execute c (Sql.insertProjectTechnology p techId)) noFaults w =
      (.ok (),
        ⟨w.committed,
          some { s with projects_technologies :=
            s.projects_technologies ++ ts.map (fun t => ⟨p, t⟩) },
          w.autoInc, w.calls + ts.length, w.acquired, w.released⟩) := by
  induction ts generalizing w s with
  | nil =>
    obtain ⟨committed, tx, autoInc, calls, acquired, released⟩ := w
    dsimp only at hw
    subst hw
    simp [forEach, pure_apply]
  | cons t ts ih =>
    unfold forEach
    rw [bind_ok _ _ noFaults w _ _ (execute_noFaults c _ w s hw)]
    rw [ih _ _ rfl]
    simp [Sql.insertProjectTechnology, Nat.add_assoc, Nat.add_comm 1]

theorem executeInsertProject_noFaults (c : Connection) (name description : String) (u : Nat)
    (w : World) (s : Store) (hw : w.tx = some s) :
    executeInsertProject c name description u noFaults w =
      (.ok w.autoInc,
        ⟨w.committed,
          some { s with projects := s.projects ++
            [{ id := w.autoInc, name := name, description := description, fk_user := u }] },
          w.autoInc + 1, w.calls + 1, w.acquired, w.released⟩) := by
  unfold executeInsertProject
  rw [call_ok _ noFaults w rfl]
  simp [World.view, World.setView, hw]

theorem commit_noFaults (c : Connection) (w : World) (s : Store) (hw : w.tx = some s) :
    commit c noFaults w =
      (.ok (), ⟨s, none, w.autoInc, w.calls + 1, w.acquired, w.released⟩) := by
  unfold commit
  rw [call_ok _ noFaults w rfl]
  simp [World.view, hw]

/-- The fault-free run of `editProject` on a request that passes the guards. -/
theorem editProject_noFaults (w : World) (req : Request) (p creatorId : Nat)
    (rest : List Nat) (hw : w.tx = none) (hpid : req.pid = some p) (hp : p ≠ 0)
    (hval : req.validationErrors = [])
    (hrows : (w.committed.projects.filter (fun r => r.id == p)).map (fun r => r.fk_user) =
      creatorId :: rest)
    (hauth : req.userId = req.authUserId) (hcre : req.userId = creatorId) :
    runHandler (editProject req) noFaults w =
      (.json 200 "projectEdited",
        ⟨{ w.committed with
            projects := w.committed.projects.map (fun r =>
              if r.id == p && r.fk_user == req.userId then
                { r with name := req.projectName, description := req.projectDesc }
              else r)
            projects_technologies :=
              w.committed.projects_technologies.filter (fun r => !(r.project_id == p)) ++
                (req.technologies.getD []).map (fun t => ⟨p, t⟩) },
          none, w.autoInc, w.calls + 7 + (req.technologies.getD []).length,
          w.acquired + 2, w.released + 2⟩) := by
  have hview : w.view = w.committed := view_of_tx_none w hw
  have hc := getProjectCreatorId_ok p noFaults w rfl rfl
  rw [hview, hrows] at hc
  unfold runHandler editProject
  simp only [hpid, hp, hval, if_false, ne_eq, not_true_eq_false, bind_eq]
  rw [bind_ok _ _ _ _ _ _ hc]
  simp only [hauth.symm, hcre, if_false, ne_eq, not_true_eq_false, or_self]
  rw [acquire_begin _ _ _ rfl rfl]
  unfold tryFinally tryCatch release
  rw [bind_ok _ _ _ _ _ _ (execute_noFaults _ _ _ _ rfl)]
  rw [bind_ok _ _ _ _ _ _ (execute_noFaults _ _ _ _ rfl)]
  cases htech : req.technologies with
  | none =>
    simp only [pure_apply, Option.getD]
    rw [bind_ok _ _ _ _ _ _ (pure_apply () noFaults _)]
    rw [bind_ok _ _ _ _ _ _ (commit_noFaults _ _ _ rfl)]
    simp [pure_apply, Sql.updateProject, Sql.deleteProjectTechnologies, World.view, hw, hcre]
  | some l =>
    cases l with
    | nil =>
      simp only [pure_apply, Option.getD]
      rw [bind_ok _ _ _ _ _ _ (pure_apply () noFaults _)]
      rw [bind_ok _ _ _ _ _ _ (commit_noFaults _ _ _ rfl)]
      simp [pure_apply, Sql.updateProject, Sql.deleteProjectTechnologies, World.view, hw, hcre]
    | cons t l =>
      simp only [Option.getD]
      rw [bind_ok _ _ _ _ _ _ (forEach_insert_noFaults _ p (t :: l) _ _ rfl)]
      rw [bind_ok _ _ _ _ _ _ (commit_noFaults _ _ _ rfl)]
      simp [pure_apply, Sql.updateProject, Sql.deleteProjectTechnologies, World.view, hw, hcre]
      omega
/-- The fault-free run of `addProject` on a request that passes the guards. -/
theorem addProject_noFaults (w : World) (req : Request) (hw : w.tx = none)
    (hval : req.validationErrors = []) (hauth : req.userId = req.authUserId) :
    runHandler (addProject req) noFaults w =
      (.json 201 "projectAdded",
        ⟨{ w.committed with
            projects := w.committed.projects ++
              [{ id := w.autoInc, name := req.projectName, description := req.projectDesc,
                 fk_user := req.userId }]
            projects_technologies :=
              w.committed.projects_technologies ++
                (req.technologies.getD []).map (fun t => ⟨w.autoInc, t⟩) },
          none, w.autoInc + 1, w.calls + 4 + (req.technologies.getD []).length,
          w.acquired + 1, w.released + 1⟩) := by
  unfold runHandler addProject
  simp only [hval, hauth, if_false, ne_eq, not_true_eq_false, bind_eq]
  rw [acquire_begin _ _ _ rfl rfl]
  unfold tryFinally tryCatch release
  rw [bind_ok _ _ _ _ _ _ (executeInsertProject_noFaults _ _ _ _ _ _ rfl)]
  cases htech : req.technologies with
  | none =>
    simp only [pure_apply, Option.getD]
    rw [bind_ok _ _ _ _ _ _ (pure_apply () noFaults _)]
    rw [bind_ok _ _ _ _ _ _ (commit_noFaults _ _ _ rfl)]
    simp [pure_apply, World.view, hw]
  | some l =>
    cases l with
    | nil =>
      simp only [pure_apply, Option.getD]
      rw [bind_ok _ _ _ _ _ _ (pure_apply () noFaults _)]
      rw [bind_ok _ _ _ _ _ _ (commit_noFaults _ _ _ rfl)]
      simp [pure_apply, World.view, hw]
    | cons t l =>
      simp only [Option.getD]
      rw [bind_ok _ _ _ _ _ _ (forEach_insert_noFaults _ _ (t :: l) _ _ rfl)]
      rw [bind_ok _ _ _ _ _ _ (commit_noFaults _ _ _ rfl)]
      simp [pure_apply, World.view, hw]
      omega

/-- What a successful `editProject` leaves in the store. -/
theorem editProject_success (f : Faults) (w : World) (req : Request) (p : Nat)
    (hw : w.tx = none) (hpid : req.pid = some p) (s : Nat) (key : String)
    (hsucc : (runHandler (editProject req) f w).1 = .json s key) :
    (runHandler (editProject req) f w).2.committed =
      { w.committed with
        projects := w.committed.projects.map (fun r =>
          if r.id == p && r.fk_user == req.userId then
            { r with name := req.projectName, description := req.projectDesc }
          else r)
        projects_technologies :=
          w.committed.projects_technologies.filter (fun r => !(r.project_id == p)) ++
            (req.technologies.getD []).map (fun t => ⟨p, t⟩) } := by
  have heq := runHandler_success _ (jsonStable_editProject req) f w s key hsucc
  rw [heq] at hsucc ⊢
  by_cases hp : p = 0
  · simp [runHandler, editProject, hpid, hp, pure_apply] at hsucc
  by_cases hval : req.validationErrors = []
  swap
  · simp [runHandler, editProject, hpid, hp, hval, pure_apply] at hsucc
  have hc := getProjectCreatorId_ok p noFaults w rfl rfl
  rw [view_of_tx_none w hw] at hc
  cases hrows : (w.committed.projects.filter (fun r => r.id == p)).map (fun r => r.fk_user) with
  | nil =>
    rw [hrows] at hc
    unfold runHandler editProject at hsucc
    simp only [hpid, hp, hval, if_false, ne_eq, not_true_eq_false, bind_eq] at hsucc
    rw [bind_error _ _ _ _ _ _ hc] at hsucc
    cases hsucc
  | cons creatorId rest =>
    by_cases hauth : req.userId ≠ req.authUserId ∨ req.userId ≠ creatorId
    · rw [hrows] at hc
      unfold runHandler editProject at hsucc
      simp only [hpid, hp, hval, if_false, ne_eq, not_true_eq_false, bind_eq] at hsucc
      rw [bind_ok _ _ _ _ _ _ hc] at hsucc
      simp [hauth, pure_apply] at hsucc
    · have h1 : req.userId = req.authUserId := by
        by_contra h
        exact hauth (Or.inl h)
      have h2 : req.userId = creatorId := by
        by_contra h
        exact hauth (Or.inr h)
      rw [editProject_noFaults w req p creatorId rest hw hpid hp hval hrows h1 h2]

/-- What a successful `addProject` leaves in the store. -/
theorem addProject_success (f : Faults) (w : World) (req : Request)
    (hw : w.tx = none) (s : Nat) (key : String)
    (hsucc : (runHandler (addProject req) f w).1 = .json s key) :
    (runHandler (addProject req) f w).2.committed =
      { w.committed with
        projects := w.committed.projects ++
          [{ id := w.autoInc, name := req.projectName, description := req.projectDesc,
             fk_user := req.userId }]
        projects_technologies :=
          w.committed.projects_technologies ++
            (req.technologies.getD []).map (fun t => ⟨w.autoInc, t⟩) } := by
  have heq := runHandler_success _ (jsonStable_addProject req) f w s key hsucc
  rw [heq] at hsucc ⊢
  by_cases hval : req.validationErrors = []
  swap
  · simp [runHandler, addProject, hval, pure_apply] at hsucc
  by_cases hauth : req.userId = req.authUserId
  swap
  · simp [runHandler, addProject, hval, hauth, pure_apply] at hsucc
  rw [addProject_noFaults w req hw hval hauth]

theorem filter_project_map (p : Nat) (ts : List Nat) :
    (ts.map (fun t => (⟨p, t⟩ : ProjectTechnologyRow))).filter (fun r => r.project_id == p) =
      ts.map (fun t => ⟨p, t⟩) := by
  induction ts with
  | nil => rfl
  | cons t ts ih => simp [List.filter_cons, ih]

theorem filter_not_project_map (p : Nat) (ts : List Nat) :
    (ts.map (fun t => (⟨p, t⟩ : ProjectTechnologyRow))).filter
      (fun r => !(r.project_id == p)) = [] := by
  induction ts with
  | nil => rfl
  | cons t ts ih => simp [List.filter_cons, ih]

theorem nodup_project_map (p : Nat) (ts : List Nat) (h : ts.Nodup) :
    (ts.map (fun t => (⟨p, t⟩ : ProjectTechnologyRow))).Nodup := by
  apply List.Nodup.map _ h
  intro a b hab
  simpa using hab

/-- The creator lookup on a project all of whose rows name the user `u`. -/
theorem creator_rows (projects : List ProjectRow) (p u : Nat)
    (hex : ∃ r ∈ projects, r.id = p) (hown : ∀ r ∈ projects, r.id = p → r.fk_user = u) :
    ∃ rest, (projects.filter (fun r => r.id == p)).map (fun r => r.fk_user) = u :: rest := by
  obtain ⟨r0, hr0, hid⟩ := hex
  cases hl : projects.filter (fun r => r.id == p) with
  | nil =>
    have : r0 ∈ projects.filter (fun r => r.id == p) := List.mem_filter.2 ⟨hr0, by simpa using hid⟩
    rw [hl] at this
    cases this
  | cons r rs =>
    have hr : r ∈ projects.filter (fun r => r.id == p) := by rw [hl]; exact List.mem_cons_self _ _
    obtain ⟨h1, h2⟩ := List.mem_filter.1 hr
    exact ⟨rs.map (fun r => r.fk_user), by simp [hown r h1 (by simpa using h2)]⟩

/-! ## The grouping scan -/

theorem map_modifyFirst {α : Type} (key : α → Nat) (p : α → Bool) (g : α → α)
    (hg : ∀ a, key (g a) = key a) (l : List α) :
    (modifyFirst p g l).map key = l.map key := by
  induction l with
  | nil => rfl
  | cons x xs ih =>
    unfold modifyFirst
    split
    · simp [hg]
    · simp [ih]

theorem modifyFirst_eq_map {α : Type} (key : α → Nat) (k : Nat) (g : α → α) (l : List α)
    (hnd : (l.map key).Nodup) :
    modifyFirst (fun a => key a == k) g l = l.map (fun a => if key a == k then g a else a) := by
  induction l with
  | nil => rfl
  | cons x xs ih =>
    simp only [List.map_cons, List.nodup_cons] at hnd
    unfold modifyFirst
    by_cases hx : key x = k
    · have hxs : ∀ a ∈ xs, key a ≠ k := by
        intro a ha hak
        exact hnd.1 (hx ▸ hak ▸ List.mem_map_of_mem key ha)
      have hmap : xs.map (fun a => if key a == k then g a else a) = xs := by
        conv_rhs => rw [← List.map_id xs]
        apply List.map_congr_left
        intro a ha
        simp [hxs a ha]
      rw [List.map_cons, hmap]
      simp [hx]
    · simp [hx, ih hnd.2]

theorem groupStep_keys {ρ ε : Type} (ekey : ε → Nat) (rkey : ρ → Nat) (mk : ρ → ε)
    (push : ρ → ε → ε) (hmk : ∀ r, ekey (mk r) = rkey r)
    (hpush : ∀ r e, ekey (push r e) = ekey e) (acc : List ε) (row : ρ) :
    (groupStep ekey rkey mk push acc row).map ekey =
      if rkey row ∈ acc.map ekey then acc.map ekey else acc.map ekey ++ [rkey row] := by
  unfold groupStep
  cases hfind : acc.find? (fun e => ekey e == rkey row) with
  | none =>
    have hnot : rkey row ∉ acc.map ekey := by
      intro hmem
      obtain ⟨e, he, hk⟩ := List.mem_map.1 hmem
      have := List.find?_eq_none.1 hfind e he
      simp [hk] at this
    simp [hnot, hmk]
  | some e0 =>
    have hmem : rkey row ∈ acc.map ekey := by
      have h1 := List.mem_of_find?_eq_some hfind
      have h2 := List.find?_some hfind
      simp only [beq_iff_eq] at h2
      exact h2 ▸ List.mem_map_of_mem ekey h1
    simp only [hmem, if_true]
    exact map_modifyFirst ekey _ _ (hpush row) acc

/-- Adding a key at the end keeps "the distinct keys, in order of first occurrence". -/
theorem firstSeen_snoc (ids keys : List Nat) (k : Nat)
    (hnd : ids.Nodup) (hmem : ∀ a, a ∈ ids ↔ a ∈ keys)
    (hord : ∀ a ∈ ids, ∀ b ∈ ids,
      (ids.indexOf a < ids.indexOf b ↔ keys.indexOf a < keys.indexOf b)) :
    (if k ∈ ids then ids else ids ++ [k]).Nodup ∧
    (∀ a, a ∈ (if k ∈ ids then ids else ids ++ [k]) ↔ a ∈ keys ++ [k]) ∧
    (∀ a ∈ (if k ∈ ids then ids else ids ++ [k]), ∀ b ∈ (if k ∈ ids then ids else ids ++ [k]),
      ((if k ∈ ids then ids else ids ++ [k]).indexOf a <
          (if k ∈ ids then ids else ids ++ [k]).indexOf b ↔
        (keys ++ [k]).indexOf a < (keys ++ [k]).indexOf b)) := by
  by_cases hk : k ∈ ids
  · simp only [hk, if_true]
    refine ⟨hnd, ?_, ?_⟩
    · intro a
      constructor
      · intro ha
        exact List.mem_append_left _ ((hmem a).1 ha)
      · intro ha
        rcases List.mem_append.1 ha with h | h
        · exact (hmem a).2 h
        · rw [List.mem_singleton.1 h]; exact hk
    · intro a ha b hb
      rw [List.indexOf_append_of_mem ((hmem a).1 ha),
        List.indexOf_append_of_mem ((hmem b).1 hb)]
      exact hord a ha b hb
  · simp only [hk, if_false]
    have hk2 : k ∉ keys := fun h => hk ((hmem k).2 h)
    refine ⟨?_, ?_, ?_⟩
    · rw [List.nodup_append]
      refine ⟨hnd, List.nodup_singleton k, ?_⟩
      intro a ha hb
      rw [List.mem_singleton.1 hb] at ha
      exact hk ha
    · intro a
      simp only [List.mem_append, List.mem_singleton, hmem a]
    · intro a ha b hb
      rcases List.mem_append.1 ha with ha1 | ha1 <;> rcases List.mem_append.1 hb with hb1 | hb1
      · rw [List.indexOf_append_of_mem ha1, List.indexOf_append_of_mem hb1,
          List.indexOf_append_of_mem ((hmem a).1 ha1),
          List.indexOf_append_of_mem ((hmem b).1 hb1)]
        exact hord a ha1 b hb1
      · have hbk : b = k := List.mem_singleton.1 hb1
        subst hbk
        rw [List.indexOf_append_of_mem ha1, List.indexOf_append_of_not_mem hk,
          List.indexOf_append_of_mem ((hmem a).1 ha1), List.indexOf_append_of_not_mem hk2]
        have h1 : ids.indexOf a < ids.length := List.indexOf_lt_length.2 ha1
        have h2 : keys.indexOf a < keys.length := List.indexOf_lt_length.2 ((hmem a).1 ha1)
        constructor <;> intro _ <;> omega
      · have hak : a = k := List.mem_singleton.1 ha1
        subst hak
        rw [List.indexOf_append_of_mem hb1, List.indexOf_append_of_not_mem hk,
          List.indexOf_append_of_mem ((hmem b).1 hb1), List.indexOf_append_of_not_mem hk2]
        have h1 : ids.indexOf b < ids.length := List.indexOf_lt_length.2 hb1
        have h2 : keys.indexOf b < keys.length := List.indexOf_lt_length.2 ((hmem b).1 hb1)
        constructor <;> intro _ <;> omega
      · have hak : a = k := List.mem_singleton.1 ha1
        have hbk : b = k := List.mem_singleton.1 hb1
        subst hak
        subst hbk
        simp

/-- The grouping scan outputs the distinct keys of the rows, each once, in the
order of their first occurrence. -/
theorem group_keys {ρ ε : Type} (ekey : ε → Nat) (rkey : ρ → Nat) (mk : ρ → ε)
    (push : ρ → ε → ε) (hmk : ∀ r, ekey (mk r) = rkey r)
    (hpush : ∀ r e, ekey (push r e) = ekey e) (rows : List ρ) :
    ((rows.foldl (groupStep ekey rkey mk push) []).map ekey).Nodup ∧
    (∀ a, a ∈ (rows.foldl (groupStep ekey rkey mk push) []).map ekey ↔ a ∈ rows.map rkey) ∧
    (∀ a ∈ (rows.foldl (groupStep ekey rkey mk push) []).map ekey,
      ∀ b ∈ (rows.foldl (groupStep ekey rkey mk push) []).map ekey,
      (((rows.foldl (groupStep ekey rkey mk push) []).map ekey).indexOf a <
          ((rows.foldl (groupStep ekey rkey mk push) []).map ekey).indexOf b ↔
        (rows.map rkey).indexOf a < (rows.map rkey).indexOf b)) := by
  induction rows using List.reverseRecOn with
  | nil => simp
  | append_singleton pre row ih =>
    rw [List.foldl_append, List.foldl_cons, List.foldl_nil,
      groupStep_keys ekey rkey mk push hmk hpush, List.map_append, List.map_cons, List.map_nil]
    exact firstSeen_snoc _ _ (rkey row) ih.1 ih.2.1 ih.2.2

theorem groupStep_of_none {ρ ε : Type} (ekey : ε → Nat) (rkey : ρ → Nat) (mk : ρ → ε)
    (push : ρ → ε → ε) (acc : List ε) (row : ρ)
    (h : acc.find? (fun e => ekey e == rkey row) = none) :
    groupStep ekey rkey mk push acc row = acc ++ [mk row] := by
  unfold groupStep
  rw [h]

theorem groupStep_of_some {ρ ε : Type} (ekey : ε → Nat) (rkey : ρ → Nat) (mk : ρ → ε)
    (push : ρ → ε → ε) (acc : List ε) (row : ρ) (e0 : ε)
    (h : acc.find? (fun e => ekey e == rkey row) = some e0) :
    groupStep ekey rkey mk push acc row =
      modifyFirst (fun e => ekey e == rkey row) (push row) acc := by
  unfold groupStep
  rw [h]

/-- What the grouping scan collects in an entity: the contributions of the rows
that carry its key, in row order. -/
theorem group_content {ρ ε τ : Type} (ekey : ε → Nat) (rkey : ρ → Nat) (mk : ρ → ε)
    (push : ρ → ε → ε) (content : ε → List τ) (contrib : ρ → List τ)
    (hmk : ∀ r, ekey (mk r) = rkey r) (hpush : ∀ r e, ekey (push r e) = ekey e)
    (hcmk : ∀ r, content (mk r) = contrib r)
    (hcpush : ∀ r e, content (push r e) = content e ++ contrib r) (rows : List ρ) :
    ∀ e ∈ rows.foldl (groupStep ekey rkey mk push) [],
      content e = (rows.filter (fun r => rkey r == ekey e)).flatMap contrib := by
  induction rows using List.reverseRecOn with
  | nil => simp
  | append_singleton pre row ih =>
    obtain ⟨hnd, hmem, -⟩ := group_keys ekey rkey mk push hmk hpush pre
    intro e he
    rw [List.foldl_append, List.foldl_cons, List.foldl_nil] at he
    rw [List.filter_append, List.flatMap_append]
    cases hfind : (pre.foldl (groupStep ekey rkey mk push) []).find?
        (fun e => ekey e == rkey row) with
    | none =>
      rw [groupStep_of_none ekey rkey mk push _ row hfind] at he
      have hnot : ∀ x ∈ pre.foldl (groupStep ekey rkey mk push) [], ekey x ≠ rkey row := by
        intro x hx hk
        have := List.find?_eq_none.1 hfind x hx
        simp [hk] at this
      rcases List.mem_append.1 he with h | h
      · have hne : rkey row ≠ ekey e := fun hk => hnot e h hk.symm
        simp [ih e h, hne]
      · have hee : e = mk row := List.mem_singleton.1 h
        subst hee
        have hpre : pre.filter (fun r => rkey r == ekey (mk row)) = [] := by
          rw [List.filter_eq_nil_iff]
          intro r hr hk
          simp only [beq_iff_eq, hmk] at hk
          have h1 : rkey row ∈ (pre.foldl (groupStep ekey rkey mk push) []).map ekey :=
            (hmem _).2 (hk ▸ List.mem_map_of_mem rkey hr)
          obtain ⟨x, hx, hxk⟩ := List.mem_map.1 h1
          exact hnot x hx hxk
        rw [hpre]
        simp [hmk, hcmk]
    | some e0 =>
      rw [groupStep_of_some ekey rkey mk push _ row e0 hfind] at he
      rw [modifyFirst_eq_map ekey (rkey row) (push row) _ hnd] at he
      obtain ⟨x, hx, hxe⟩ := List.mem_map.1 he
      by_cases hk : ekey x = rkey row
      · simp only [hk, beq_self_eq_true, if_true] at hxe
        subst hxe
        simp [hpush, hcpush, ih x hx, hk]
      · simp only [beq_iff_eq, hk, if_false] at hxe
        subst hxe
        have hne : rkey row ≠ ekey x := fun h => hk h.symm
        simp [ih x hx, hne]

theorem getProjects_projects_eq (md5 : String → String) (results : List ProjectsRow) :
    getProjects.projects md5 results =
      results.foldl (groupStep (fun e : ProjectsItem => e.projectId) (fun r => r.projectId)
        (fun result => {
          projectId := result.projectId
          projectName := result.projectName
          projectDescription := result.projectDescription
          projectUpdatedAt := result.projectUpdatedAt
          creator := result.creator
          creatorId := result.creatorId
          creatorEmail := md5 result.creatorEmail
          technologies := [result.technologyName] })
        (fun result existingProject =>
          { existingProject with
            technologies := existingProject.technologies ++ [result.technologyName] })) [] := by
  unfold getProjects.projects
  congr
  funext acc row
  unfold groupStep
  cases acc.find? (fun p => p.projectId == row.projectId) <;> rfl

theorem getProjectsByUserId_projects_eq (results : List UserProjectsRow) :
    getProjectsByUserId.projects results =
      results.foldl (groupStep (fun e : UserProjectsItem => e.projectId) (fun r => r.projectId)
        (fun result => {
          projectId := result.projectId
          projectName := result.projectName
          projectDescription := result.projectDescription
          projectCreatedAt := result.projectCreatedAt
          projectUpdatedAt := result.projectUpdatedAt
          technologies := [result.technologyName] })
        (fun result existingProject =>
          { existingProject with
            technologies := existingProject.technologies ++ [result.technologyName] })) [] := by
  unfold getProjectsByUserId.projects
  congr
  funext acc row
  unfold groupStep
  cases acc.find? (fun p => p.projectId == row.projectId) <;> rfl

theorem getProjectsFavorites_projects_eq (results : List FavoriteProjectsRow) :
    getProjectsFavorites.projects results =
      results.foldl (groupStep (fun e : FavoriteProject => e.id) (fun r => r.project_id)
        (fun row => {
          id := row.project_id
          name := row.project_name
          description := row.project_description
          updatedAt := row.project_updatedAt
          creatorId := row.creator_id
          technologies :=
            if truthy row.technology_id then
              [{ id := row.technology_id, name := row.technology_name }]
            else [] })
        (fun row existingProject =>
          if truthy row.technology_id then
            { existingProject with
              technologies := existingProject.technologies ++
                [{ id := row.technology_id, name := row.technology_name }] }
          else existingProject)) [] := by
  unfold getProjectsFavorites.projects
  congr
  funext acc row
  unfold groupStep
  cases acc.find? (fun p => p.id == row.project_id) <;> rfl

theorem favorites_contrib_eq (k : Nat) (rows : List FavoriteProjectsRow) :
    (rows.filter (fun r => r.project_id == k)).flatMap
        (fun row =>
          if truthy row.technology_id then
            [({ id := row.technology_id, name := row.technology_name } : TechnologyRef)]
          else []) =
      (rows.filter (fun r => r.project_id == k && truthy r.technology_id)).map
        (fun r => { id := r.technology_id, name := r.technology_name }) := by
  induction rows with
  | nil => rfl
  | cons r rs ih =>
    by_cases h1 : r.project_id = k <;> by_cases h2 : truthy r.technology_id = true <;>
      simp [List.filter_cons, h1, h2, ih]

theorem getProjectsFavorites_mem_ids (rows : List FavoriteProjectsRow) (a : Nat) :
    a ∈ (getProjectsFavorites.projects rows).map (fun p => p.id) ↔
      a ∈ rows.map (fun r => r.project_id) := by
  rw [getProjectsFavorites_projects_eq]
  refine (group_keys _ _ _ _ ?_ ?_ rows).2.1 a
  · intro r; rfl
  · intro r e; dsimp only; split <;> rfl

/-! ## Fault-free runs of the favorites handlers -/

theorem filter_eq_nil_of_not_exists {α : Type} (l : List α) (p : α → Bool)
    (h : ¬ ∃ x ∈ l, p x = true) : l.filter p = [] := by
  rw [List.filter_eq_nil_iff]
  intro x hx hp
  exact h ⟨x, hx, hp⟩

/-- When user `a` or user `b` is missing, one of the two existence queries of the
favorites handlers comes back empty. -/
theorem missing_rows (users : List UserRow) (a b : Nat)
    (hmiss : (¬ ∃ u ∈ users, u.id = a) ∨ (¬ ∃ u ∈ users, u.id = b)) :
    users.filter (fun r => r.id == a) = [] ∨ users.filter (fun r => r.id == b) = [] := by
  rcases hmiss with h | h
  · exact Or.inl (filter_eq_nil_of_not_exists _ _ (by simpa using h))
  · exact Or.inr (filter_eq_nil_of_not_exists _ _ (by simpa using h))

/-- The fault-free run of `addUserFav` when one of the two users is missing. -/
theorem addUserFav_missing (w : World) (a b : Nat) (hw : w.tx = none) (hb : b ≠ 0)
    (hab : a ≠ b)
    (hmiss : (¬ ∃ u ∈ w.committed.users, u.id = a) ∨ (¬ ∃ u ∈ w.committed.users, u.id = b)) :
    runHandler (addUserFav (userRequest a b)) noFaults w =
      (.next 404 "One or both users do not exist.",
        ⟨w.committed, none, w.autoInc, w.calls + 3, w.acquired + 1, w.released + 1⟩) := by
  have h := missing_rows _ a b hmiss
  obtain ⟨committed, tx, autoInc, calls, acquired, released⟩ := w
  dsimp only at hw h
  subst hw
  rcases h with h | h <;>
    simp [runHandler, addUserFav, userRequest, hb, hab, bind_eq, M.bind, call,
      noFaults, getConnection, execute, tryFinally, tryCatch, release, World.view,
      World.setView, Sql.selectUserId, pure_apply, h]

/-- Whatever the fault plan, `addUserFav` leaves the store alone when one of the
two users is missing. -/
theorem addUserFav_missing_unchanged (f : Faults) (w : World) (a b : Nat) (hw : w.tx = none)
    (hmiss : (¬ ∃ u ∈ w.committed.users, u.id = a) ∨ (¬ ∃ u ∈ w.committed.users, u.id = b)) :
    (runHandler (addUserFav (userRequest a b)) f w).2.committed = w.committed := by
  have h := missing_rows _ a b hmiss
  obtain ⟨committed, tx, autoInc, calls, acquired, released⟩ := w
  dsimp only at hw h
  subst hw
  by_cases hb : b = 0
  · simp [runHandler, addUserFav, userRequest, hb, pure_apply]
  by_cases hab : a = b
  · simp [runHandler, addUserFav, userRequest, hb, hab, pure_apply]
  cases h0 : f calls <;> cases h1 : f (calls + 1) <;> cases h2 : f (calls + 1 + 1) <;>
    rcases h with h | h <;>
    simp [runHandler, addUserFav, userRequest, hb, hab, bind_eq, M.bind, call,
      getConnection, execute, tryFinally, tryCatch, release, World.view,
      World.setView, Sql.selectUserId, pure_apply, h, h0, h1, h2]
/-- The fault-free run of `removeUserFav` when one of the two users is missing. -/
theorem removeUserFav_missing (w : World) (a b : Nat) (hw : w.tx = none) (hb : b ≠ 0)
    (hab : a ≠ b)
    (hmiss : (¬ ∃ u ∈ w.committed.users, u.id = a) ∨ (¬ ∃ u ∈ w.committed.users, u.id = b)) :
    runHandler (removeUserFav (userRequest a b)) noFaults w =
      (.next 404 "One or both users do not exist.",
        ⟨w.committed, none, w.autoInc, w.calls + 3, w.acquired + 1, w.released + 1⟩) := by
  have h := missing_rows _ a b hmiss
  obtain ⟨committed, tx, autoInc, calls, acquired, released⟩ := w
  dsimp only at hw h
  subst hw
  rcases h with h | h <;>
    simp [runHandler, removeUserFav, userRequest, hb, hab, bind_eq, M.bind, call,
      noFaults, getConnection, execute, tryFinally, tryCatch, release, World.view,
      World.setView, Sql.selectUserId, pure_apply, h]

/-- Whatever the fault plan, `removeUserFav` leaves the store alone when one of the
two users is missing. -/
theorem removeUserFav_missing_unchanged (f : Faults) (w : World) (a b : Nat)
    (hw : w.tx = none)
    (hmiss : (¬ ∃ u ∈ w.committed.users, u.id = a) ∨ (¬ ∃ u ∈ w.committed.users, u.id = b)) :
    (runHandler (removeUserFav (userRequest a b)) f w).2.committed = w.committed := by
  have h := missing_rows _ a b hmiss
  obtain ⟨committed, tx, autoInc, calls, acquired, released⟩ := w
  dsimp only at hw h
  subst hw
  by_cases hb : b = 0
  · simp [runHandler, removeUserFav, userRequest, hb, pure_apply]
  by_cases hab : a = b
  · simp [runHandler, removeUserFav, userRequest, hb, hab, pure_apply]
  cases h0 : f calls <;> cases h1 : f (calls + 1) <;> cases h2 : f (calls + 1 + 1) <;>
    rcases h with h | h <;>
    simp [runHandler, removeUserFav, userRequest, hb, hab, bind_eq, M.bind, call,
      getConnection, execute, tryFinally, tryCatch, release, World.view,
      World.setView, Sql.selectUserId, pure_apply, h, h0, h1, h2]

/-- The fault-free run of `removeUserFav` for two existing users and an absent edge. -/
theorem removeUserFav_absent (w : World) (a b : Nat) (hw : w.tx = none) (hb : b ≠ 0)
    (hab : a ≠ b)
    (hea : ∃ u ∈ w.committed.users, u.id = a) (heb : ∃ u ∈ w.committed.users, u.id = b)
    (habsent : ∀ r ∈ w.committed.users_favorites, ¬(r.user_id = a ∧ r.favUser_id = b)) :
    runHandler (removeUserFav (userRequest a b)) noFaults w =
      (.next 404 "This relationship does not exist.",
        ⟨w.committed, none, w.autoInc, w.calls + 4, w.acquired + 1, w.released + 1⟩) := by
  have h1 : w.committed.users.filter (fun r => r.id == a) ≠ [] :=
    filter_ne_nil_of_exists _ _ (by simpa using hea)
  have h2 : w.committed.users.filter (fun r => r.id == b) ≠ [] :=
    filter_ne_nil_of_exists _ _ (by simpa using heb)
  have h3 : w.committed.users_favorites.filter
      (fun r => r.user_id == a && r.favUser_id == b) = [] := by
    rw [List.filter_eq_nil_iff]
    intro r hr
    simpa using habsent r hr
  obtain ⟨committed, tx, autoInc, calls, acquired, released⟩ := w
  dsimp only at hw h1 h2 h3
  subst hw
  simp [runHandler, removeUserFav, userRequest, hb, hab, bind_eq, M.bind, call,
    noFaults, getConnection, execute, tryFinally, tryCatch, release, World.view,
    World.setView, Sql.selectUserId, Sql.selectUserFavorite, pure_apply, h1, h2, h3]

/-- The fault-free run of `removeUserFav` for two existing users and an edge that
is there: the rows `(a, b)` are deleted, the answer is 200. -/
theorem removeUserFav_present (w : World) (a b : Nat) (hw : w.tx = none) (hb : b ≠ 0)
    (hab : a ≠ b)
    (hea : ∃ u ∈ w.committed.users, u.id = a) (heb : ∃ u ∈ w.committed.users, u.id = b)
    (hpresent : ∃ r ∈ w.committed.users_favorites, r.user_id = a ∧ r.favUser_id = b) :
    runHandler (removeUserFav (userRequest a b)) noFaults w =
      (.json 200 "userRemoved",
        ⟨{ w.committed with
            users_favorites := w.committed.users_favorites.filter
              (fun r => !(r.user_id == a && r.favUser_id == b)) },
          none, w.autoInc, w.calls + 5, w.acquired + 1, w.released + 1⟩) := by
  have h1 : w.committed.users.filter (fun r => r.id == a) ≠ [] :=
    filter_ne_nil_of_exists _ _ (by simpa using hea)
  have h2 : w.committed.users.filter (fun r => r.id == b) ≠ [] :=
    filter_ne_nil_of_exists _ _ (by simpa using heb)
  have h3 : w.committed.users_favorites.filter
      (fun r => r.user_id == a && r.favUser_id == b) ≠ [] :=
    filter_ne_nil_of_exists _ _ (by simpa using hpresent)
  obtain ⟨committed, tx, autoInc, calls, acquired, released⟩ := w
  dsimp only at hw h1 h2 h3
  subst hw
  simp [runHandler, removeUserFav, userRequest, hb, hab, bind_eq, M.bind, call,
    noFaults, getConnection, execute, tryFinally, tryCatch, release, World.view,
    World.setView, Sql.selectUserId, Sql.selectUserFavorite, Sql.deleteUserFavorite,
    pure_apply, h1, h2, h3]

/-- For two different ids the conjunct `NOT (user_id = y AND favUser_id = x)` of the
query of `checkIfUserIsFav` holds on every row the first two conjuncts select. -/
theorem selectUserFavoriteNotReversed_eq (x y : Nat) (hxy : x ≠ y) (s : Store) :
    (Sql.selectUserFavoriteNotReversed x y y x s).1 = (Sql.selectUserFavorite x y s).1 := by
  unfold Sql.selectUserFavoriteNotReversed Sql.selectUserFavorite
  apply List.filter_congr
  intro r _
  by_cases h1 : r.user_id = x <;> by_cases h2 : r.favUser_id = y <;> simp [h1, h2]
  exact Or.inl hxy

/-- The fault-free run of `checkIfUserIsFav`: the answer says whether
`users_favorites` has a row `(x, y)`; nothing is written. -/
theorem checkIfUserIsFav_noFaults (w : World) (x y : Nat) (hw : w.tx = none) (hy : y ≠ 0)
    (hxy : x ≠ y) :
    runHandler (checkIfUserIsFav (userRequest x y)) noFaults w =
      (.isFav (w.committed.users_favorites.any (fun r => r.user_id == x && r.favUser_id == y)),
        ⟨w.committed, none, w.autoInc, w.calls + 2, w.acquired + 1, w.released + 1⟩) := by
  have hq := selectUserFavoriteNotReversed_eq x y hxy w.committed
  have hq2 : (Sql.selectUserFavoriteNotReversed x y y x w.committed).2 = w.committed := rfl
  obtain ⟨committed, tx, autoInc, calls, acquired, released⟩ := w
  dsimp only at hw hq hq2
  subst hw
  have hyx : y ≠ x := fun h => hxy h.symm
  cases hl : committed.users_favorites.filter
      (fun r => r.user_id == x && r.favUser_id == y) with
  | nil =>
    have hany : committed.users_favorites.any
        (fun r => r.user_id == x && r.favUser_id == y) = false := by
      rw [List.any_eq_false]
      intro r hr hp
      have : r ∈ committed.users_favorites.filter
          (fun r => r.user_id == x && r.favUser_id == y) := List.mem_filter.2 ⟨hr, hp⟩
      rw [hl] at this
      cases this
    simp only [Sql.selectUserFavorite, hl] at hq
    simp [runHandler, checkIfUserIsFav, userRequest, hy, hyx, bind_eq, M.bind, call,
      noFaults, getConnection, execute, tryFinally, tryCatch, release, World.view,
      World.setView, pure_apply, hq, hq2, hany]
  | cons r rs =>
    have hany : committed.users_favorites.any
        (fun r => r.user_id == x && r.favUser_id == y) = true := by
      rw [List.any_eq_true]
      have : r ∈ committed.users_favorites.filter
          (fun r => r.user_id == x && r.favUser_id == y) := by
        rw [hl]; exact List.mem_cons_self _ _
      exact ⟨r, (List.mem_filter.1 this).1, (List.mem_filter.1 this).2⟩
    simp only [Sql.selectUserFavorite, hl] at hq
    simp [runHandler, checkIfUserIsFav, userRequest, hy, hyx, bind_eq, M.bind, call,
      noFaults, getConnection, execute, tryFinally, tryCatch, release, World.view,
      World.setView, pure_apply, hq, hq2, hany]

theorem jsonStable_addUserFav (req : Request) : JsonStable (addUserFav req) := by
  unfold addUserFav
  split
  · exact jsonStable_pure _
  split
  · exact jsonStable_pure _
  split
  · exact jsonStable_pure _
  split
  · exact jsonStable_pure _
  split
  · exact jsonStable_pure _
  apply jsonStable_bind _ _ (okStable_call _)
  intro c
  apply jsonStable_tryFinally_release
  apply jsonStable_tryCatch
  · apply jsonStable_bind _ _ (okStable_call _)
    intro _
    apply jsonStable_bind _ _ (okStable_call _)
    intro _
    split
    · exact jsonStable_pure _
    apply jsonStable_bind _ _ (okStable_call _)
    intro _
    split
    · exact jsonStable_pure _
    apply jsonStable_bind _ _ (okStable_call _)
    intro _
    exact jsonStable_pure _
  · intro _
    exact noJson_next _ _

/-- What a successful `addUserFav` says about the state before it and what it
leaves: the target is a valid id other than the requester, both users exist, the
edge was absent and is appended. -/
theorem addUserFav_success (f : Faults) (w : World) (a b : Nat) (hw : w.tx = none)
    (s : Nat) (key : String)
    (hsucc : (runHandler (addUserFav (userRequest a b)) f w).1 = .json s key) :
    b ≠ 0 ∧ a ≠ b ∧ (∃ u ∈ w.committed.users, u.id = a) ∧
    (∃ u ∈ w.committed.users, u.id = b) ∧
    (∀ r ∈ w.committed.users_favorites, ¬(r.user_id = a ∧ r.favUser_id = b)) ∧
    runHandler (addUserFav (userRequest a b)) f w =
      (.json 201 "userAdded",
        ⟨{ w.committed with
            users_favorites := w.committed.users_favorites ++ [⟨a, b⟩] },
          none, w.autoInc, w.calls + 5, w.acquired + 1, w.released + 1⟩) := by
  have heq := runHandler_success _ (jsonStable_addUserFav _) f w s key hsucc
  rw [heq] at hsucc ⊢
  by_cases hb : b = 0
  · simp [runHandler, addUserFav, userRequest, hb, pure_apply] at hsucc
  by_cases hab : a = b
  · simp [runHandler, addUserFav, userRequest, hb, hab, pure_apply] at hsucc
  by_cases hea : ∃ u ∈ w.committed.users, u.id = a
  swap
  · rw [addUserFav_missing w a b hw hb hab (Or.inl hea)] at hsucc
    cases hsucc
  by_cases heb : ∃ u ∈ w.committed.users, u.id = b
  swap
  · rw [addUserFav_missing w a b hw hb hab (Or.inr heb)] at hsucc
    cases hsucc
  by_cases hpresent : ∃ r ∈ w.committed.users_favorites, r.user_id = a ∧ r.favUser_id = b
  · rw [addUserFav_present w _ a b hw hb hab rfl rfl rfl rfl hea heb hpresent] at hsucc
    cases hsucc
  have habsent : ∀ r ∈ w.committed.users_favorites, ¬(r.user_id = a ∧ r.favUser_id = b) :=
    fun r hr h => hpresent ⟨r, hr, h⟩
  exact ⟨hb, hab, hea, heb, habsent,
    addUserFav_absent w _ a b hw hb hab rfl rfl rfl rfl hea heb habsent⟩

/-- The run of `addUserFav` in which the checks pass and the `INSERT` is the call
that fails: the catch block answers 500, nothing is written. -/
theorem addUserFav_insert_fails (f : Faults) (w : World) (a b : Nat) (hw : w.tx = none)
    (hb : b ≠ 0) (hab : a ≠ b)
    (hea : ∃ u ∈ w.committed.users, u.id = a) (heb : ∃ u ∈ w.committed.users, u.id = b)
    (habsent : ∀ r ∈ w.committed.users_favorites, ¬(r.user_id = a ∧ r.favUser_id = b))
    (h0 : f w.calls = false) (h1 : f (w.calls + 1) = false) (h2 : f (w.calls + 2) = false)
    (h3 : f (w.calls + 3) = false) (h4 : f (w.calls + 4) = true) :
    runHandler (addUserFav (userRequest a b)) f w =
      (.next 500 "Could not add this user to favorites",
        ⟨w.committed, none, w.autoInc, w.calls + 5, w.acquired + 1, w.released + 1⟩) := by
  have g1 : w.committed.users.filter (fun r => r.id == a) ≠ [] :=
    filter_ne_nil_of_exists _ _ (by simpa using hea)
  have g2 : w.committed.users.filter (fun r => r.id == b) ≠ [] :=
    filter_ne_nil_of_exists _ _ (by simpa using heb)
  have g3 : w.committed.users_favorites.filter
      (fun r => r.user_id == a && r.favUser_id == b) = [] := by
    rw [List.filter_eq_nil_iff]
    intro r hr
    simpa using habsent r hr
  obtain ⟨committed, tx, autoInc, calls, acquired, released⟩ := w
  dsimp only at hw g1 g2 g3 h0 h1 h2 h3 h4
  subst hw
  simp [runHandler, addUserFav, userRequest, hb, hab, bind_eq, M.bind, call,
    getConnection, execute, tryFinally, tryCatch, release, World.view,
    World.setView, Sql.selectUserId, Sql.selectUserFavorite, Sql.insertUserFavorite,
    pure_apply, g1, g2, g3, h0, h1, h2, h3, h4, Nat.add_assoc]

/-- The run of `addProjectFav` in which the project exists and the `INSERT` is the
call that fails: the catch block answers 500, nothing is written. -/
theorem addProjectFav_insert_fails (f : Faults) (w : World) (u p : Nat) (hw : w.tx = none)
    (hp : p ≠ 0) (hex : ∃ r ∈ w.committed.projects, r.id = p)
    (h0 : f w.calls = false) (h1 : f (w.calls + 1) = false) (h2 : f (w.calls + 2) = true) :
    runHandler (addProjectFav (projectRequest u p)) f w =
      (.next 500 "Could not add this project to favorites",
        ⟨w.committed, none, w.autoInc, w.calls + 3, w.acquired + 1, w.released + 1⟩) := by
  have g1 : w.committed.projects.filter (fun r => r.id == p) ≠ [] :=
    filter_ne_nil_of_exists _ _ (by simpa using hex)
  obtain ⟨committed, tx, autoInc, calls, acquired, released⟩ := w
  dsimp only at hw g1 h0 h1 h2
  subst hw
  simp [runHandler, addProjectFav, projectRequest, hp, bind_eq, M.bind, call,
    getConnection, execute, tryFinally, tryCatch, release, World.view,
    World.setView, Sql.selectProjectId, Sql.insertProjectFavorite,
    pure_apply, g1, h0, h1, h2, Nat.add_assoc]

/-! ## Fault-free and successful runs of deleteUser -/

/-- The fault-free run of the loop of `deleteUser` inside a transaction: the
`projects_technologies` rows of the listed project ids are gone. -/
theorem forEach_deleteTechnologies_noFaults (c : Connection) (ids : List Nat) (w : World)
    (s : Store) (hw : w.tx = some s) :
    forEach ids (fun project => execute c (Sql.deleteProjectTechnologies project)) noFaults w =
      (.ok (),
        ⟨w.committed,
          some { s with projects_technologies :=
            s.projects_technologies.filter (fun r => !(ids.contains r.project_id)) },
          w.autoInc, w.calls + ids.length, w.acquired, w.released⟩) := by
  induction ids generalizing w s with
  | nil =>
    obtain ⟨committed, tx, autoInc, calls, acquired, released⟩ := w
    dsimp only at hw
    subst hw
    simp [forEach, pure_apply]
  | cons x xs ih =>
    unfold forEach
    rw [bind_ok _ _ noFaults w _ _ (execute_noFaults c _ w s hw)]
    rw [ih _ _ rfl]
    simp only [Sql.deleteProjectTechnologies, List.filter_filter, List.length_cons]
    refine Prod.ext rfl ?_
    simp only [World.mk.injEq, Option.some.injEq, Store.mk.injEq, true_and, and_true]
    refine ⟨?_, by omega⟩
    apply List.filter_congr
    intro r _
    by_cases h : r.project_id = x <;> simp [h, List.contains_cons]

/-- The fault-free run of `deleteUser` on a request that passes the guards. -/
theorem deleteUser_noFaults (w : World) (req : Request) (u : Nat) (hw : w.tx = none)
    (huid : req.uid = some u) (hu : u ≠ 0) (hval : req.validationErrors = [])
    (hauth : req.authUserId = u) (hbody : req.userId = u) :
    runHandler (deleteUser req) noFaults w =
      (.json 200 "userDeleted",
        ⟨{ w.committed with
            users := w.committed.users.filter (fun r => !(r.id == u))
            projects := w.committed.projects.filter (fun p => !(p.fk_user == u))
            projects_technologies := w.committed.projects_technologies.filter
              (fun r => !(((w.committed.projects.filter (fun p => p.fk_user == u)).map
                (fun p => p.id)).contains r.project_id))
            users_favorites := w.committed.users_favorites.filter
              (fun r => !(r.user_id == u || r.favUser_id == u)) },
          none, w.autoInc,
          w.calls + 7 + ((w.committed.projects.filter (fun p => p.fk_user == u)).map
            (fun p => p.id)).length,
          w.acquired + 1, w.released + 1⟩) := by
  have hg0 : getConnection noFaults w =
      (.ok ⟨w.acquired⟩,
        ⟨w.committed, w.tx, w.autoInc, w.calls + 1, w.acquired + 1, w.released⟩) :=
    call_ok _ _ _ rfl
  have hbegin : beginTransaction ⟨w.acquired⟩ noFaults
      ⟨w.committed, w.tx, w.autoInc, w.calls + 1, w.acquired + 1, w.released⟩ =
      (.ok (),
        ⟨w.committed, some w.committed, w.autoInc, w.calls + 2, w.acquired + 1,
          w.released⟩) := by
    unfold beginTransaction
    rw [call_ok _ _ _ rfl]
    simp [World.view, hw]
  unfold runHandler deleteUser
  simp only [huid, hu, hval, hauth, hbody, if_false, ne_eq, not_true_eq_false, or_self, bind_eq]
  rw [hg0]
  dsimp only
  rw [tryBlock_bind_ok _ _ _ _ _ _ _ _ hbegin]
  unfold tryFinally tryCatch release
  rw [bind_ok _ _ _ _ _ _ (execute_noFaults _ _ _ _ rfl)]
  rw [bind_ok _ _ _ _ _ _ (execute_noFaults _ _ _ _ rfl)]
  rw [bind_ok _ _ _ _ _ _ (forEach_deleteTechnologies_noFaults _ _ _ _ rfl)]
  rw [bind_ok _ _ _ _ _ _ (execute_noFaults _ _ _ _ rfl)]
  rw [bind_ok _ _ _ _ _ _ (execute_noFaults _ _ _ _ rfl)]
  rw [bind_ok _ _ _ _ _ _ (commit_noFaults _ _ _ rfl)]
  simp [pure_apply, Sql.deleteUsersFavoritesOf, Sql.selectProjectIdsOfUser,
    Sql.deleteProjectsOfUser, Sql.deleteUserById]
  omega

theorem jsonStable_deleteUser (req : Request) : JsonStable (deleteUser req) := by
  unfold deleteUser
  split
  · exact jsonStable_pure _
  split
  · exact jsonStable_pure _
  split
  · exact jsonStable_pure _
  split
  · exact jsonStable_pure _
  intro f w w1 s key h
  dsimp only at h ⊢
  cases hg : getConnection f w with
  | mk res w2 =>
    rw [hg] at h
    cases res with
    | error e => cases h
    | ok c =>
      have hg0 : getConnection noFaults w = (.ok c, w2) := okStable_call _ f w w2 c hg
      rw [hg0]
      dsimp only at h ⊢
      revert h
      apply jsonStable_tryFinally_release
      apply jsonStable_tryCatch
      · apply jsonStable_bind _ _ (okStable_call _)
        intro _
        apply jsonStable_bind _ _ (okStable_call _)
        intro _
        apply jsonStable_bind _ _ (okStable_call _)
        intro _
        apply jsonStable_bind _ _ (okStable_forEach _ _ (fun _ => okStable_call _))
        intro _
        apply jsonStable_bind _ _ (okStable_call _)
        intro _
        apply jsonStable_bind _ _ (okStable_call _)
        intro _
        apply jsonStable_bind _ _ (okStable_call _)
        intro _
        exact jsonStable_pure _
      · intro _
        exact noJson_rollback_next _ _ _

/-- What a successful `deleteUser` leaves in the store. -/
theorem deleteUser_success (f : Faults) (w : World) (req : Request) (hw : w.tx = none)
    (s : Nat) (key : String)
    (hsucc : (runHandler (deleteUser req) f w).1 = .json s key) :
    (runHandler (deleteUser req) f w).2.committed =
      { w.committed with
        users := w.committed.users.filter (fun r => !(r.id == req.userId))
        projects := w.committed.projects.filter (fun p => !(p.fk_user == req.userId))
        projects_technologies := w.committed.projects_technologies.filter
          (fun r => !(((w.committed.projects.filter (fun p => p.fk_user == req.userId)).map
            (fun p => p.id)).contains r.project_id))
        users_favorites := w.committed.users_favorites.filter
          (fun r => !(r.user_id == req.userId || r.favUser_id == req.userId)) } := by
  have heq := runHandler_success _ (jsonStable_deleteUser req) f w s key hsucc
  rw [heq] at hsucc ⊢
  cases huid : req.uid with
  | none => simp [runHandler, deleteUser, huid, pure_apply] at hsucc
  | some u =>
    by_cases hu : u = 0
    · simp [runHandler, deleteUser, huid, hu, pure_apply] at hsucc
    by_cases hval : req.validationErrors = []
    swap
    · simp [runHandler, deleteUser, huid, hu, hval, pure_apply] at hsucc
    by_cases hauth : u ≠ req.authUserId ∨ req.userId ≠ req.authUserId
    · simp [runHandler, deleteUser, huid, hu, hval, hauth, pure_apply] at hsucc
    have h1 : req.authUserId = u := by
      by_contra h
      exact hauth (Or.inl (fun h' => h h'.symm))
    have h2 : req.userId = u := by
      by_contra h
      exact hauth (Or.inr (fun h' => h (h'.trans h1)))
    rw [deleteUser_noFaults w req u hw huid hu hval h1 h2, h2]

/-! ## Authorization of editProject -/

/-- The run of `editProject` when the creator lookup succeeds and the requester is
not both the authenticated user and the creator: 401 right after the lookup. -/
theorem editProject_unauthorized (f : Faults) (w : World) (req : Request)
    (p creatorId : Nat) (rest : List Nat) (hw : w.tx = none) (hpid : req.pid = some p)
    (hp : p ≠ 0) (hval : req.validationErrors = [])
    (hrows : (Sql.selectCreatorOfProject p w.committed).1 = creatorId :: rest)
    (hno : ¬(req.userId = req.authUserId ∧ req.userId = creatorId))
    (h0 : f w.calls = false) (h1 : f (w.calls + 1) = false) :
    runHandler (editProject req) f w =
      (.next 401 "You're not allowed to edit this project",
        ⟨w.committed, none, w.autoInc, w.calls + 2, w.acquired + 1, w.released + 1⟩) := by
  have hc := getProjectCreatorId_ok p f w h0 h1
  rw [view_of_tx_none w hw] at hc
  simp only [Sql.selectCreatorOfProject] at hrows
  rw [hrows] at hc
  have hguard : req.userId ≠ req.authUserId ∨ req.userId ≠ creatorId := by
    by_cases h : req.userId = req.authUserId
    · exact Or.inr (fun h' => hno ⟨h, h'⟩)
    · exact Or.inl h
  unfold runHandler editProject
  simp only [hpid, hp, hval, if_false, ne_eq, not_true_eq_false, bind_eq]
  rw [bind_ok _ _ _ _ _ _ hc]
  simp only [ne_eq] at hguard
  simp [hguard, pure_apply, hw]

/-! ## Properties kept under every fault plan -/

theorem keeps_pure {α : Type} (I : Store → Prop) (a : α) : Keeps I (pure a : M α) :=
  fun _ _ h1 h2 => ⟨h1, h2⟩

theorem keeps_throwJs {α : Type} (I : Store → Prop) (e : Thrown) :
    Keeps I (throwJs e : M α) :=
  fun _ _ h1 h2 => ⟨h1, h2⟩

theorem keeps_bind {α β : Type} (I : Store → Prop) (m : M α) (k : α → M β)
    (hm : Keeps I m) (hk : ∀ a, Keeps I (k a)) : Keeps I (M.bind m k) := by
  intro f w h1 h2
  obtain ⟨g1, g2⟩ := hm f w h1 h2
  unfold M.bind
  cases hr : m f w with
  | mk res w1 =>
    rw [hr] at g1 g2
    cases res with
    | ok a => exact hk a f w1 g1 g2
    | error e => exact ⟨g1, g2⟩

theorem keeps_tryCatch {α : Type} (I : Store → Prop) (body : M α) (h : Thrown → M α)
    (hb : Keeps I body) (hh : ∀ e, Keeps I (h e)) : Keeps I (tryCatch body h) := by
  intro f w h1 h2
  obtain ⟨g1, g2⟩ := hb f w h1 h2
  unfold tryCatch
  cases hr : body f w with
  | mk res w1 =>
    rw [hr] at g1 g2
    cases res with
    | ok a => exact ⟨g1, g2⟩
    | error e => exact hh e f w1 g1 g2

theorem keeps_tryFinally {α : Type} (I : Store → Prop) (body : M α) (fin : M Unit)
    (hb : Keeps I body) (hf : Keeps I fin) : Keeps I (tryFinally body fin) := by
  intro f w h1 h2
  obtain ⟨g1, g2⟩ := hb f w h1 h2
  unfold tryFinally
  cases hr : body f w with
  | mk res w1 =>
    rw [hr] at g1 g2
    obtain ⟨k1, k2⟩ := hf f w1 g1 g2
    dsimp only
    cases hr2 : fin f w1 with
    | mk res2 w2 =>
      rw [hr2] at k1 k2
      cases res2 <;> exact ⟨k1, k2⟩

theorem keeps_forEach {α : Type} (I : Store → Prop) (xs : List α) (body : α → M Unit)
    (hb : ∀ x, Keeps I (body x)) : Keeps I (forEach xs body) := by
  induction xs with
  | nil => exact keeps_pure I ()
  | cons x xs ih => exact keeps_bind I _ _ (hb x) (fun _ => ih)

theorem keeps_call {α : Type} (I : Store → Prop) (eff : World → α × World)
    (h : ∀ w, I w.committed → (∀ s, w.tx = some s → I s) →
      I (eff w).2.committed ∧ (∀ s, (eff w).2.tx = some s → I s)) :
    Keeps I (call eff) := by
  intro f w h1 h2
  unfold call
  split
  · exact ⟨h1, h2⟩
  · exact h w h1 h2

theorem view_keeps (I : Store → Prop) (w : World) (h1 : I w.committed)
    (h2 : ∀ s, w.tx = some s → I s) : I w.view := by
  unfold World.view
  cases h : w.tx with
  | none => exact h1
  | some s => exact h2 s h

theorem keeps_getConnection (I : Store → Prop) : Keeps I getConnection :=
  keeps_call I _ (fun _ h1 h2 => ⟨h1, h2⟩)

theorem keeps_release (I : Store → Prop) (c : Connection) : Keeps I (release c) :=
  fun _ _ h1 h2 => ⟨h1, h2⟩

theorem keeps_beginTransaction (I : Store → Prop) (c : Connection) :
    Keeps I (beginTransaction c) :=
  keeps_call I _ (fun w h1 h2 =>
    ⟨view_keeps I w h1 h2, fun s hs => by cases hs; exact view_keeps I w h1 h2⟩)

theorem keeps_commit (I : Store → Prop) (c : Connection) : Keeps I (commit c) :=
  keeps_call I _ (fun w h1 h2 => ⟨view_keeps I w h1 h2, fun s hs => by cases hs⟩)

theorem keeps_rollback (I : Store → Prop) (c : Connection) : Keeps I (rollback c) :=
  keeps_call I _ (fun _ h1 _ => ⟨h1, fun s hs => by cases hs⟩)

theorem keeps_execute {α : Type} (I : Store → Prop) (c : Connection)
    (q : Store → α × Store) (hq : ∀ s, I s → I (q s).2) : Keeps I (execute c q) := by
  apply keeps_call
  intro w h1 h2
  have hv := hq _ (view_keeps I w h1 h2)
  unfold World.setView
  cases h : w.tx with
  | none => exact ⟨hv, fun s hs => by cases hs⟩
  | some s0 =>
    refine ⟨h1, fun s hs => ?_⟩
    cases hs
    exact hv

theorem keeps_getProjectCreatorId (I : Store → Prop) (p : Nat) :
    Keeps I (getProjectCreatorId p) := by
  unfold getProjectCreatorId
  apply keeps_bind _ _ _ (keeps_getConnection _)
  intro c
  apply keeps_tryFinally _ _ _ _ (keeps_release _ _)
  apply keeps_tryCatch
  · apply keeps_bind _ _ _ (keeps_execute _ _ _ (fun _ h => h))
    intro rows
    cases rows with
    | nil => exact keeps_throwJs _ _
    | cons a l => exact keeps_pure _ _
  · intro e
    exact keeps_throwJs _ _

/-- Whatever calls fail, `editProject` keeps every property of the store that the
`UPDATE` of the request keeps and that does not depend on `projects_technologies`,
provided the `UPDATE` is reached only by a request whose body `userId` is the
authenticated id. -/
theorem editProject_keeps (I : Store → Prop) (req : Request)
    (hupd : ∀ s p, req.pid = some p → req.userId = req.authUserId → I s →
      I (Sql.updateProject req.projectName req.projectDesc p req.userId s).2)
    (hdel : ∀ s p, I s → I (Sql.deleteProjectTechnologies p s).2)
    (hins : ∀ s p t, I s → I (Sql.insertProjectTechnology p t s).2) :
    Keeps I (editProject req) := by
  unfold editProject
  split
  · exact keeps_pure _ _
  · rename_i projectId hpid
    split
    · exact keeps_pure _ _
    split
    · exact keeps_pure _ _
    apply keeps_bind _ _ _ (keeps_getProjectCreatorId _ _)
    intro creatorId
    split
    · exact keeps_pure _ _
    rename_i hguard
    have hauth : req.userId = req.authUserId := by
      by_contra hne
      exact hguard (Or.inl hne)
    apply keeps_bind _ _ _ (keeps_getConnection _)
    intro c
    apply keeps_bind _ _ _ (keeps_beginTransaction _ _)
    intro _
    apply keeps_tryFinally _ _ _ _ (keeps_release _ _)
    apply keeps_tryCatch
    · apply keeps_bind _ _ _ (keeps_execute _ _ _ (hupd · projectId hpid hauth))
      intro _
      apply keeps_bind _ _ _ (keeps_execute _ _ _ (hdel · projectId))
      intro _
      apply keeps_bind
      · split
        · exact keeps_forEach _ _ _ (fun t => keeps_execute _ _ _ (hins · projectId t))
        · exact keeps_pure _ _
      intro _
      apply keeps_bind _ _ _ (keeps_commit _ _)
      intro _
      exact keeps_pure _ _
    · intro _
      apply keeps_bind _ _ _ (keeps_rollback _ _)
      intro _
      exact keeps_pure _ _

theorem updateProject_frame (name description : String) (p u : Nat) (R : ProjectRow → Prop)
    (hR : ∀ r, r.id = p → r.fk_user = u → R r)
    (before rows : List ProjectRow)
    (h : List.Forall₂ (fun r r' => r'.id = r.id ∧ r'.fk_user = r.fk_user ∧ (¬ R r → r' = r))
      before rows) :
    List.Forall₂ (fun r r' => r'.id = r.id ∧ r'.fk_user = r.fk_user ∧ (¬ R r → r' = r))
      before (rows.map (fun r =>
        if r.id == p && r.fk_user == u then { r with name := name, description := description }
        else r)) := by
  induction h with
  | nil => exact List.Forall₂.nil
  | @cons a b l1 l2 hab _ ih =>
    refine List.Forall₂.cons ?_ ih
    obtain ⟨h1, h2, h3⟩ := hab
    by_cases hc : (b.id == p && b.fk_user == u) = true
    · dsimp only
      rw [if_pos hc]
      refine ⟨h1, h2, fun hn => ?_⟩
      simp only [Bool.and_eq_true, beq_iff_eq] at hc
      exact absurd (hR a (h1 ▸ hc.1) (h2 ▸ hc.2)) hn
    · dsimp only
      rw [if_neg hc]
      exact ⟨h1, h2, h3⟩

/-! ## The claims -/

/-- C1 (the code departs from the claim): in the scenario, `deleteUser` of user 1
succeeds and removes user 1 and project 7, yet `projects_favorites` is left as it
was: the row `(2, 7)` still references the former project 7 of user 1 and the row
`(1, 8)` still references user 1. No statement of `deleteUser` names
`projects_favorites`. -/
theorem C1_deleteUser_leaves_projects_favorites :
    (runHandler (deleteUser requestDeleteUser1) noFaults scenarioWorld).1 =
      .json 200 "userDeleted" ∧
    (runHandler (deleteUser requestDeleteUser1) noFaults scenarioWorld).2.committed.users.map
      (fun u => u.id) = [2] ∧
    (runHandler (deleteUser requestDeleteUser1) noFaults scenarioWorld).2.committed.projects.map
      (fun p => p.id) = [8] ∧
    (runHandler (deleteUser requestDeleteUser1) noFaults
      scenarioWorld).2.committed.projects_favorites = [⟨2, 7⟩, ⟨1, 8⟩] := by
  decide

/-- C2: for `deleteUser`, `addProject` and `editProject`, started outside a
transaction, and for every position `k` of a driver call of the fault-free run that
is a statement of the transaction or its commit (for `deleteUser` also
`beginTransaction`): when exactly that call fails, the handler reports its 500
error through `next`, the durable state after the call equals the durable state
before it, and no transaction is left open. Positions count the driver calls from
the start of the handler: `getConnection` is 0 and `beginTransaction` is 1 (in
`editProject` they are 2 and 3, after the two calls of `getProjectCreatorId`), the
statements follow. -/
theorem C2_atomicity (req : Request) (w : World) (hw : w.tx = none) (k : Nat) :
    (1 ≤ k → w.calls + k < (runHandler (deleteUser req) noFaults w).2.calls →
      (runHandler (deleteUser req) (failAt (w.calls + k)) w).1 =
          .next 500 "Error deleting user and associated data" ∧
      (runHandler (deleteUser req) (failAt (w.calls + k)) w).2.committed = w.committed ∧
      (runHandler (deleteUser req) (failAt (w.calls + k)) w).2.tx = none) ∧
    (2 ≤ k → w.calls + k < (runHandler (addProject req) noFaults w).2.calls →
      (runHandler (addProject req) (failAt (w.calls + k)) w).1 =
          .next 500 "Could not add the project" ∧
      (runHandler (addProject req) (failAt (w.calls + k)) w).2.committed = w.committed ∧
      (runHandler (addProject req) (failAt (w.calls + k)) w).2.tx = none) ∧
    (4 ≤ k → w.calls + k < (runHandler (editProject req) noFaults w).2.calls →
      (runHandler (editProject req) (failAt (w.calls + k)) w).1 =
          .next 500 "Could not edit the project" ∧
      (runHandler (editProject req) (failAt (w.calls + k)) w).2.committed = w.committed ∧
      (runHandler (editProject req) (failAt (w.calls + k)) w).2.tx = none) :=
  ⟨deleteUser_failAt req w hw k, addProject_failAt req w hw k, editProject_failAt req w hw k⟩

/-- C2 in the scenario: `deleteUser` of user 1 with the `DELETE FROM projects`
failing (position 5 of 8), `addProject` with the second technology insert failing
(position 4 of 6) and `editProject` of project 7 with the commit failing
(position 7 of 8) report 500 and leave the scenario store as it was. -/
theorem C2_atomicity_witness :
    ((runHandler (deleteUser requestDeleteUser1) noFaults scenarioWorld).2.calls = 8 ∧
      (runHandler (deleteUser requestDeleteUser1) (failAt 5) scenarioWorld).1 =
        .next 500 "Error deleting user and associated data" ∧
      (runHandler (deleteUser requestDeleteUser1) (failAt 5) scenarioWorld).2.committed =
        scenarioStore) ∧
    ((runHandler (addProject requestAddProject) noFaults scenarioWorld).2.calls = 6 ∧
      (runHandler (addProject requestAddProject) (failAt 4) scenarioWorld).1 =
        .next 500 "Could not add the project" ∧
      (runHandler (addProject requestAddProject) (failAt 4) scenarioWorld).2.committed =
        scenarioStore) ∧
    ((runHandler (editProject requestEditProject7) noFaults scenarioWorld).2.calls = 8 ∧
      (runHandler (editProject requestEditProject7) (failAt 7) scenarioWorld).1 =
        .next 500 "Could not edit the project" ∧
      (runHandler (editProject requestEditProject7) (failAt 7) scenarioWorld).2.committed =
        scenarioStore) :=
  ⟨⟨by decide,
    ((C2_atomicity requestDeleteUser1 scenarioWorld rfl 5).1 (by decide) (by decide)).1,
    ((C2_atomicity requestDeleteUser1 scenarioWorld rfl 5).1 (by decide) (by decide)).2.1⟩,
   ⟨by decide,
    ((C2_atomicity requestAddProject scenarioWorld rfl 4).2.1 (by decide) (by decide)).1,
    ((C2_atomicity requestAddProject scenarioWorld rfl 4).2.1 (by decide) (by decide)).2.1⟩,
   ⟨by decide,
    ((C2_atomicity requestEditProject7 scenarioWorld rfl 7).2.2 (by decide) (by decide)).1,
    ((C2_atomicity requestEditProject7 scenarioWorld rfl 7).2.2 (by decide)
      (by decide)).2.1⟩⟩

/-- C3 (the code departs from the claim): on the single joined row of a project
without technology (`technologyName` null, `technologyId` null) the fold of
`getProjects` and of `getProjectsByUserId` yields one project whose `technologies`
is `[null]`, and the mapping of `getProjectById` yields `[{id: null, name: null}]`:
one element each, not the empty list. -/
theorem C3_null_technology_is_listed (md5 : String → String) :
    (getProjects.projects md5
        [{ projectId := 1, projectName := "p", projectDescription := "d", projectUpdatedAt := 0,
           creator := "u", creatorId := 5, creatorEmail := "m",
           technologyName := none }]).map (fun p => p.technologies) = [[none]] ∧
    (getProjectsByUserId.projects
        [{ projectId := 1, projectName := "p", projectDescription := "d", projectCreatedAt := 0,
           projectUpdatedAt := 0, technologyName := none }]).map (fun p => p.technologies)
      = [[none]] ∧
    (getProjectById.project
        [{ projectName := "p", projectDescription := "d", creatorId := 5,
           technologyId := none, technologyName := none }]).map (fun p => p.technologies)
      = some [{ id := none, name := none }] := by
  refine ⟨rfl, rfl, rfl⟩

/-- C4 as stated fails: a row whose `technology_id` is `0` is non-null, yet the
truthiness test of the reduce drops it. On the single row `(project 1, technology 0)`
the output entity of project 1 has no technology, while the non-null rows of
project 1 give the pair `(0, "zero")`: the technologies of the entity with id 1
are not the pairs of the rows of project 1 with a non-null `technology_id`. -/
theorem C4_counterexample :
    (getProjectsFavorites.projects rowsWithTechnologyZero).map
      (fun p => (p.id, p.technologies)) = [(1, [])] ∧
    (rowsWithTechnologyZero.filter (fun r => r.project_id == 1 && r.technology_id.isSome)).map
      (fun r => ({ id := r.technology_id, name := r.technology_name } : TechnologyRef)) =
      [{ id := some 0, name := some "zero" }] ∧
    ¬ (∀ e ∈ getProjectsFavorites.projects rowsWithTechnologyZero, e.id = 1 →
      e.technologies =
        (rowsWithTechnologyZero.filter
          (fun r => r.project_id == 1 && r.technology_id.isSome)).map
          (fun r => ({ id := r.technology_id, name := r.technology_name } : TechnologyRef))) := by
  decide

/-- C4 (amended): for every sequence of joined rows and every project id `k`
occurring in it, the output of the reduce of `getProjectsFavorites` has an entity
with id `k`, and the technologies of every output entity with id `k` are, in row
order, the `(technology_id, technology_name)` pairs of exactly the rows whose
`project_id` is `k` and whose `technology_id` is truthy (neither null nor 0). -/
theorem C4_favorites_technologies (rows : List FavoriteProjectsRow) (k : Nat)
    (hk : k ∈ rows.map (fun r => r.project_id)) :
    (∃ e ∈ getProjectsFavorites.projects rows, e.id = k) ∧
    ∀ e ∈ getProjectsFavorites.projects rows, e.id = k →
      e.technologies =
        (rows.filter (fun r => r.project_id == k && truthy r.technology_id)).map
          (fun r => { id := r.technology_id, name := r.technology_name }) := by
  have hpush : ∀ (r : FavoriteProjectsRow) (e : FavoriteProject),
      (if truthy r.technology_id then
        { e with technologies := e.technologies ++
            [{ id := r.technology_id, name := r.technology_name }] }
       else e).id = e.id := by
    intro r e; split <;> rfl
  constructor
  · obtain ⟨e, he, hek⟩ := List.mem_map.1 ((getProjectsFavorites_mem_ids rows k).2 hk)
    exact ⟨e, he, hek⟩
  · rw [getProjectsFavorites_projects_eq]
    intro e he hek
    have h := group_content (fun e : FavoriteProject => e.id) (fun r => r.project_id) _ _
      (fun e => e.technologies)
      (fun row =>
        if truthy row.technology_id then
          [({ id := row.technology_id, name := row.technology_name } : TechnologyRef)]
        else [])
      (fun _ => rfl) hpush (fun _ => rfl)
      (fun r e => by dsimp only; split <;> simp) rows e he
    dsimp only at h
    rw [h, hek, favorites_contrib_eq]

/-- C4 (amended), at the rows `[(1,10),(1,11),(2,null)]` of the claim: project 1
gets the technologies 10 and 11, in this order. -/
theorem C4_favorites_technologies_witness :
    ∃ e ∈ getProjectsFavorites.projects
        [{ project_id := 1, project_name := "a", project_description := "d",
           project_updatedAt := 0, creator_id := 5, technology_id := some 10,
           technology_name := some "ten" },
         { project_id := 1, project_name := "a", project_description := "d",
           project_updatedAt := 0, creator_id := 5, technology_id := some 11,
           technology_name := some "eleven" },
         { project_id := 2, project_name := "b", project_description := "d",
           project_updatedAt := 0, creator_id := 5, technology_id := none,
           technology_name := none }],
      e.id = 1 ∧
      e.technologies =
        [{ id := some 10, name := some "ten" }, { id := some 11, name := some "eleven" }] := by
  obtain ⟨⟨e, he, hek⟩, h⟩ := C4_favorites_technologies
    [{ project_id := 1, project_name := "a", project_description := "d",
       project_updatedAt := 0, creator_id := 5, technology_id := some 10,
       technology_name := some "ten" },
     { project_id := 1, project_name := "a", project_description := "d",
       project_updatedAt := 0, creator_id := 5, technology_id := some 11,
       technology_name := some "eleven" },
     { project_id := 2, project_name := "b", project_description := "d",
       project_updatedAt := 0, creator_id := 5, technology_id := none,
       technology_name := none }] 1 (by decide)
  exact ⟨e, he, hek, h e he hek⟩

/-- C5: for every sequence of joined rows, the folds of `getProjects`,
`getProjectsByUserId` and `getProjectsFavorites` output no project id twice, output
exactly the project ids that occur in the rows, and order the entities by the
position of the first row that carries their project id. -/
theorem C5_grouping_by_project_id (md5 : String → String) :
    (∀ rows : List ProjectsRow,
      ((getProjects.projects md5 rows).map (fun p => p.projectId)).Nodup ∧
      (∀ a, a ∈ (getProjects.projects md5 rows).map (fun p => p.projectId) ↔
        a ∈ rows.map (fun r => r.projectId)) ∧
      (∀ a ∈ (getProjects.projects md5 rows).map (fun p => p.projectId),
        ∀ b ∈ (getProjects.projects md5 rows).map (fun p => p.projectId),
        (((getProjects.projects md5 rows).map (fun p => p.projectId)).indexOf a <
            ((getProjects.projects md5 rows).map (fun p => p.projectId)).indexOf b ↔
          (rows.map (fun r => r.projectId)).indexOf a <
            (rows.map (fun r => r.projectId)).indexOf b))) ∧
    (∀ rows : List UserProjectsRow,
      ((getProjectsByUserId.projects rows).map (fun p => p.projectId)).Nodup ∧
      (∀ a, a ∈ (getProjectsByUserId.projects rows).map (fun p => p.projectId) ↔
        a ∈ rows.map (fun r => r.projectId)) ∧
      (∀ a ∈ (getProjectsByUserId.projects rows).map (fun p => p.projectId),
        ∀ b ∈ (getProjectsByUserId.projects rows).map (fun p => p.projectId),
        (((getProjectsByUserId.projects rows).map (fun p => p.projectId)).indexOf a <
            ((getProjectsByUserId.projects rows).map (fun p => p.projectId)).indexOf b ↔
          (rows.map (fun r => r.projectId)).indexOf a <
            (rows.map (fun r => r.projectId)).indexOf b))) ∧
    (∀ rows : List FavoriteProjectsRow,
      ((getProjectsFavorites.projects rows).map (fun p => p.id)).Nodup ∧
      (∀ a, a ∈ (getProjectsFavorites.projects rows).map (fun p => p.id) ↔
        a ∈ rows.map (fun r => r.project_id)) ∧
      (∀ a ∈ (getProjectsFavorites.projects rows).map (fun p => p.id),
        ∀ b ∈ (getProjectsFavorites.projects rows).map (fun p => p.id),
        (((getProjectsFavorites.projects rows).map (fun p => p.id)).indexOf a <
            ((getProjectsFavorites.projects rows).map (fun p => p.id)).indexOf b ↔
          (rows.map (fun r => r.project_id)).indexOf a <
            (rows.map (fun r => r.project_id)).indexOf b))) := by
  refine ⟨fun rows => ?_, fun rows => ?_, fun rows => ?_⟩
  · rw [getProjects_projects_eq]
    refine group_keys _ _ _ _ ?_ ?_ rows
    · intro r; rfl
    · intro r e; rfl
  · rw [getProjectsByUserId_projects_eq]
    refine group_keys _ _ _ _ ?_ ?_ rows
    · intro r; rfl
    · intro r e; rfl
  · rw [getProjectsFavorites_projects_eq]
    refine group_keys _ _ _ _ ?_ ?_ rows
    · intro r; rfl
    · intro r e; dsimp only; split <;> rfl

/-- C6 as stated fails: in the scenario, `editProject` of project 7 with the
technology list `[10, 10]` succeeds and leaves the pair `(7, 10)` twice in
`projects_technologies`; the insert loop writes one row per element of the list,
repeated or not. -/
theorem C6_counterexample :
    (runHandler (editProject requestEditProject7Repeated) noFaults scenarioWorld).1 =
      .json 200 "projectEdited" ∧
    (runHandler (editProject requestEditProject7Repeated) noFaults
      scenarioWorld).2.committed.projects_technologies.filter
        (fun r => r.project_id == 7) = [⟨7, 10⟩, ⟨7, 10⟩] ∧
    ¬ ((runHandler (editProject requestEditProject7Repeated) noFaults
      scenarioWorld).2.committed.projects_technologies.filter
        (fun r => r.project_id == 7)).Nodup := by
  decide

/-- C6 (amended): after a successful `editProject` on project `p` with the list
`ts` (the empty list when `technologies` is empty or absent) the
`projects_technologies` rows of `p` are exactly one row `(p, t)` per element of
`ts`, in the order of `ts` (so no pair occurs twice when `ts` has no repeated id,
no earlier row of `p` survives unless it is inserted again, and there is no row
when `ts` is empty), and the rows of the other projects are as before. After a
successful `addProject` the new project has the id of the AUTO_INCREMENT counter
and, when no earlier row carries that id, its rows are exactly one row per
element of `ts`, the earlier rows being kept. -/
theorem C6_replace_all (f : Faults) (w : World) (req : Request) (hw : w.tx = none) :
    (∀ p, req.pid = some p →
      (runHandler (editProject req) f w).1 = .json 200 "projectEdited" →
      (runHandler (editProject req) f w).2.committed.projects_technologies.filter
          (fun r => r.project_id == p) =
        (req.technologies.getD []).map (fun t => ⟨p, t⟩) ∧
      ((req.technologies.getD []).Nodup →
        ((runHandler (editProject req) f w).2.committed.projects_technologies.filter
          (fun r => r.project_id == p)).Nodup) ∧
      (runHandler (editProject req) f w).2.committed.projects_technologies.filter
          (fun r => !(r.project_id == p)) =
        w.committed.projects_technologies.filter (fun r => !(r.project_id == p))) ∧
    ((runHandler (addProject req) f w).1 = .json 201 "projectAdded" →
      (∀ r ∈ w.committed.projects_technologies, r.project_id ≠ w.autoInc) →
      (runHandler (addProject req) f w).2.committed.projects =
        w.committed.projects ++
          [{ id := w.autoInc, name := req.projectName, description := req.projectDesc,
             fk_user := req.userId }] ∧
      (runHandler (addProject req) f w).2.committed.projects_technologies.filter
          (fun r => r.project_id == w.autoInc) =
        (req.technologies.getD []).map (fun t => ⟨w.autoInc, t⟩) ∧
      ((req.technologies.getD []).Nodup →
        ((runHandler (addProject req) f w).2.committed.projects_technologies.filter
          (fun r => r.project_id == w.autoInc)).Nodup) ∧
      (runHandler (addProject req) f w).2.committed.projects_technologies.filter
          (fun r => !(r.project_id == w.autoInc)) =
        w.committed.projects_technologies) := by
  constructor
  · intro p hpid hsucc
    rw [editProject_success f w req p hw hpid _ _ hsucc]
    have h1 : (w.committed.projects_technologies.filter (fun r => !(r.project_id == p)) ++
        (req.technologies.getD []).map (fun t => (⟨p, t⟩ : ProjectTechnologyRow))).filter
          (fun r => r.project_id == p) = (req.technologies.getD []).map (fun t => ⟨p, t⟩) := by
      rw [List.filter_append, List.filter_filter, filter_project_map]
      simp
    refine ⟨h1, ?_, ?_⟩
    · intro hnd
      dsimp only
      rw [h1]
      exact nodup_project_map p _ hnd
    · dsimp only
      rw [List.filter_append, List.filter_filter, filter_not_project_map]
      simp
  · intro hsucc hfresh
    rw [addProject_success f w req hw _ _ hsucc]
    have h0 : w.committed.projects_technologies.filter
        (fun r => r.project_id == w.autoInc) = [] := by
      rw [List.filter_eq_nil_iff]
      intro r hr
      simpa using hfresh r hr
    have h1 : (w.committed.projects_technologies ++
        (req.technologies.getD []).map
          (fun t => (⟨w.autoInc, t⟩ : ProjectTechnologyRow))).filter
          (fun r => r.project_id == w.autoInc) =
        (req.technologies.getD []).map (fun t => ⟨w.autoInc, t⟩) := by
      rw [List.filter_append, h0, filter_project_map]
      rfl
    refine ⟨rfl, h1, ?_, ?_⟩
    · intro hnd
      dsimp only
      rw [h1]
      exact nodup_project_map _ _ hnd
    · dsimp only
      rw [List.filter_append, filter_not_project_map, List.append_nil, List.filter_eq_self]
      intro r hr
      simpa using hfresh r hr

/-- C6 (amended) in the scenario: user 1 replaces the technologies of project 7
by `[11]`, and adds a project with the technologies `[10, 11]`. -/
theorem C6_replace_all_witness :
    (runHandler (editProject requestEditProject7) noFaults
      scenarioWorld).2.committed.projects_technologies.filter
        (fun r => r.project_id == 7) = [⟨7, 11⟩] ∧
    (runHandler (addProject requestAddProject) noFaults
      scenarioWorld).2.committed.projects_technologies.filter
        (fun r => r.project_id == 9) = [⟨9, 10⟩, ⟨9, 11⟩] :=
  ⟨((C6_replace_all noFaults scenarioWorld requestEditProject7 rfl).1 7 rfl (by decide)).1,
   ((C6_replace_all noFaults scenarioWorld requestAddProject rfl).2 (by decide)
      (by decide)).2.1⟩

/-- C7: for a project `p` (a valid id) whose rows all name the requester as the
creator and two distinct technology ids `t1`, `t2`, the edit request with
`[t1, t2]` made twice in a row (no driver call failing) succeeds both times and
leaves the same `projects_technologies` rows as made once: the rows of `p` are
exactly `(p, t1)` and `(p, t2)`, each once. -/
theorem C7_idempotent_replace (w : World) (req : Request) (p t1 t2 : Nat)
    (hw : w.tx = none) (hpid : req.pid = some p) (hp : p ≠ 0)
    (hval : req.validationErrors = []) (hauth : req.userId = req.authUserId)
    (hex : ∃ r ∈ w.committed.projects, r.id = p)
    (hown : ∀ r ∈ w.committed.projects, r.id = p → r.fk_user = req.userId)
    (htech : req.technologies = some [t1, t2]) (hne : t1 ≠ t2) :
    (runHandler (editProject req) noFaults w).1 = .json 200 "projectEdited" ∧
    (runHandler (editProject req) noFaults
      (runHandler (editProject req) noFaults w).2).1 = .json 200 "projectEdited" ∧
    (runHandler (editProject req) noFaults
      (runHandler (editProject req) noFaults w).2).2.committed.projects_technologies =
        (runHandler (editProject req) noFaults w).2.committed.projects_technologies ∧
    (runHandler (editProject req) noFaults
      (runHandler (editProject req) noFaults w).2).2.committed.projects_technologies.filter
        (fun r => r.project_id == p) = [⟨p, t1⟩, ⟨p, t2⟩] ∧
    ((runHandler (editProject req) noFaults
      (runHandler (editProject req) noFaults w).2).2.committed.projects_technologies.filter
        (fun r => r.project_id == p)).Nodup := by
  obtain ⟨rest, hrows⟩ := creator_rows _ p req.userId hex hown
  have h1 := editProject_noFaults w req p req.userId rest hw hpid hp hval hrows hauth rfl
  have hex2 : ∃ r ∈ (runHandler (editProject req) noFaults w).2.committed.projects,
      r.id = p := by
    obtain ⟨r0, hr0, hid⟩ := hex
    rw [h1]
    refine ⟨_, List.mem_map_of_mem _ hr0, ?_⟩
    dsimp only
    split <;> exact hid
  have hown2 : ∀ r ∈ (runHandler (editProject req) noFaults w).2.committed.projects,
      r.id = p → r.fk_user = req.userId := by
    rw [h1]
    intro r hr hid
    obtain ⟨r0, hr0, hr0e⟩ := List.mem_map.1 hr
    subst hr0e
    split at hid <;> split <;> exact hown r0 hr0 hid
  obtain ⟨rest2, hrows2⟩ := creator_rows _ p req.userId hex2 hown2
  have h2 := editProject_noFaults (runHandler (editProject req) noFaults w).2 req p req.userId
    rest2 (by rw [h1]) hpid hp hval hrows2 hauth rfl
  rw [h2, h1]
  dsimp only
  have hf : ∀ l : List ProjectTechnologyRow,
      (l.filter (fun r => !(r.project_id == p)) ++
        [(⟨p, t1⟩ : ProjectTechnologyRow), ⟨p, t2⟩]).filter (fun r => !(r.project_id == p)) =
      l.filter (fun r => !(r.project_id == p)) := by
    intro l
    simp [List.filter_append, List.filter_filter]
  have hg : ∀ l : List ProjectTechnologyRow,
      (l.filter (fun r => !(r.project_id == p)) ++
        [(⟨p, t1⟩ : ProjectTechnologyRow), ⟨p, t2⟩]).filter (fun r => r.project_id == p) =
      [⟨p, t1⟩, ⟨p, t2⟩] := by
    intro l
    simp [List.filter_append, List.filter_filter]
  simp only [htech, Option.getD, List.map_cons, List.map_nil]
  refine ⟨trivial, trivial, ?_, ?_, ?_⟩
  · rw [hf]
  · rw [hf, hg]
  · rw [hf, hg]
    simp [hne]

/-- C7 in the scenario: user 1 sets the technologies of project 7 to `[10, 11]` twice. -/
theorem C7_idempotent_replace_witness :
    (runHandler (editProject requestEditProject7Pair) noFaults
      (runHandler (editProject requestEditProject7Pair) noFaults
        scenarioWorld).2).2.committed.projects_technologies =
      (runHandler (editProject requestEditProject7Pair) noFaults
        scenarioWorld).2.committed.projects_technologies ∧
    (runHandler (editProject requestEditProject7Pair) noFaults
      (runHandler (editProject requestEditProject7Pair) noFaults
        scenarioWorld).2).2.committed.projects_technologies.filter
        (fun r => r.project_id == 7) = [⟨7, 10⟩, ⟨7, 11⟩] :=
  ⟨(C7_idempotent_replace scenarioWorld requestEditProject7Pair 7 10 11 rfl rfl (by decide)
      rfl rfl (by decide) (by decide) rfl (by decide)).2.2.1,
   (C7_idempotent_replace scenarioWorld requestEditProject7Pair 7 10 11 rfl rfl (by decide)
      rfl rfl (by decide) (by decide) rfl (by decide)).2.2.2.1⟩

/-- C8: in a state in which the users `a` and `b` exist, `a ≠ b` and the edge
`(a, b)` is absent, a request of `a` to add `b` (a valid id) answers 201, the same
request made right after it answers the 422 "This relationship already exists.",
and `users_favorites` then holds exactly one row `(a, b)`: the rows it had and
the new one. No driver call fails in either run. -/
theorem C8_user_favorite_unique (w : World) (req : Request) (a b : Nat)
    (hw : w.tx = none) (hb : b ≠ 0) (hab : a ≠ b)
    (huid : req.uid = some b) (hval : req.validationErrors = [])
    (hbody : req.userId = a) (hauth : req.authUserId = a)
    (hea : ∃ u ∈ w.committed.users, u.id = a) (heb : ∃ u ∈ w.committed.users, u.id = b)
    (habsent : ∀ r ∈ w.committed.users_favorites, ¬(r.user_id = a ∧ r.favUser_id = b)) :
    (runHandler (addUserFav req) noFaults w).1 = .json 201 "userAdded" ∧
    (runHandler (addUserFav req) noFaults (runHandler (addUserFav req) noFaults w).2).1 =
      .next 422 "This relationship already exists." ∧
    (runHandler (addUserFav req) noFaults
      (runHandler (addUserFav req) noFaults w).2).2.committed.users_favorites =
        w.committed.users_favorites ++ [⟨a, b⟩] ∧
    ((runHandler (addUserFav req) noFaults
      (runHandler (addUserFav req) noFaults w).2).2.committed.users_favorites.filter
        (fun r => r.user_id == a && r.favUser_id == b)) = [⟨a, b⟩] := by
  have h1 := addUserFav_absent w req a b hw hb hab huid hval hbody hauth hea heb habsent
  have h2 := addUserFav_present (runHandler (addUserFav req) noFaults w).2 req a b
    (by rw [h1]) hb hab huid hval hbody hauth (by rw [h1]; exact hea) (by rw [h1]; exact heb)
    (by rw [h1]; exact ⟨⟨a, b⟩, by simp, rfl, rfl⟩)
  rw [h2, h1]
  refine ⟨rfl, rfl, rfl, ?_⟩
  dsimp only
  have h3 : w.committed.users_favorites.filter
      (fun r => r.user_id == a && r.favUser_id == b) = [] := by
    rw [List.filter_eq_nil_iff]
    intro r hr
    simpa using habsent r hr
  simp [List.filter_append, h3]

/-- C8 in the scenario: user 1 adds user 2 twice. -/
theorem C8_user_favorite_unique_witness :
    (runHandler (addUserFav requestFavoriteUser2) noFaults scenarioWorld).1 =
      .json 201 "userAdded" ∧
    (runHandler (addUserFav requestFavoriteUser2) noFaults
      (runHandler (addUserFav requestFavoriteUser2) noFaults scenarioWorld).2).1 =
      .next 422 "This relationship already exists." ∧
    (runHandler (addUserFav requestFavoriteUser2) noFaults
      (runHandler (addUserFav requestFavoriteUser2) noFaults
        scenarioWorld).2).2.committed.users_favorites =
        scenarioWorld.committed.users_favorites ++ [⟨1, 2⟩] ∧
    ((runHandler (addUserFav requestFavoriteUser2) noFaults
      (runHandler (addUserFav requestFavoriteUser2) noFaults
        scenarioWorld).2).2.committed.users_favorites.filter
        (fun r => r.user_id == 1 && r.favUser_id == 2)) = [⟨1, 2⟩] :=
  C8_user_favorite_unique scenarioWorld requestFavoriteUser2 1 2 rfl (by decide) (by decide)
    rfl rfl rfl rfl (by decide) (by decide) (by decide)

/-- C9 (the code departs from the claim): in the scenario user 2 has project 7
among the favorites; a request of user 2 to add project 7 answers 201 and inserts
a second row `(2, 7)`. `addProjectFav` never looks for the edge. -/
theorem C9_addProjectFav_duplicates :
    (runHandler (addProjectFav requestFavoriteProject7) noFaults scenarioWorld).1 =
      .json 201 "projectAdded" ∧
    (runHandler (addProjectFav requestFavoriteProject7) noFaults
      scenarioWorld).2.committed.projects_favorites = [⟨2, 7⟩, ⟨1, 8⟩, ⟨2, 7⟩] := by
  decide

/-- C10: a request whose body names as `userId` the id `a` of the `uid` parameter
makes `addUserFav` and `removeUserFav` end without any driver call, whatever the
fault plan: the world (store, pool counters, call count) is left as it was. When
`a` is a valid id (not 0), the validation passes and the requester is authenticated
as `a`, the answer is the 422 of the self-favorite guard. And whatever the request,
the store and the fault plan, `addUserFav` started outside a transaction leaves no
row with `user_id = favUser_id` in `users_favorites` that was not there before. -/
theorem C10_self_favorite_rejected (f : Faults) (w : World) (req : Request) (a : Nat)
    (huid : req.uid = some a) (hbody : req.userId = a) :
    (runHandler (addUserFav req) f w).2 = w ∧
    (runHandler (removeUserFav req) f w).2 = w ∧
    (a ≠ 0 → req.validationErrors = [] → req.authUserId = a →
      (runHandler (addUserFav req) f w).1 =
        .next 422 "You can't add yourself to favorites." ∧
      (runHandler (removeUserFav req) f w).1 =
        .next 422 "You can't remove yourself to favorites.") ∧
    ∀ (g : Faults) (w2 : World) (req2 : Request), w2.tx = none →
      ∀ r ∈ (runHandler (addUserFav req2) g w2).2.committed.users_favorites,
        r.user_id = r.favUser_id → r ∈ w2.committed.users_favorites := by
  refine ⟨?_, ?_, ?_, fun g w2 req2 h => addUserFav_no_self_edge g w2 req2 h⟩
  · rw [runHandler_snd]
    unfold addUserFav
    simp only [huid, hbody]
    split_ifs <;> rfl
  · rw [runHandler_snd]
    unfold removeUserFav
    simp only [huid, hbody]
    split_ifs <;> rfl
  · intro ha hval hauth
    constructor
    · simp [runHandler, addUserFav, huid, ha, hval, hbody, hauth, pure_apply]
    · simp [runHandler, removeUserFav, huid, ha, hval, hbody, hauth, pure_apply]

/-- C10 in the scenario: user 1 names user 1, with the first driver call set to fail. -/
theorem C10_self_favorite_rejected_witness :
    runHandler (addUserFav requestFavoriteSelf) (failAt 0) scenarioWorld =
      (.next 422 "You can't add yourself to favorites.", scenarioWorld) ∧
    runHandler (removeUserFav requestFavoriteSelf) (failAt 0) scenarioWorld =
      (.next 422 "You can't remove yourself to favorites.", scenarioWorld) :=
  ⟨Prod.ext
      ((C10_self_favorite_rejected (failAt 0) scenarioWorld requestFavoriteSelf 1 rfl
        rfl).2.2.1 (by decide) rfl rfl).1
      (C10_self_favorite_rejected (failAt 0) scenarioWorld requestFavoriteSelf 1 rfl rfl).1,
   Prod.ext
      ((C10_self_favorite_rejected (failAt 0) scenarioWorld requestFavoriteSelf 1 rfl
        rfl).2.2.1 (by decide) rfl rfl).2
      (C10_self_favorite_rejected (failAt 0) scenarioWorld requestFavoriteSelf 1 rfl
        rfl).2.1⟩

/-- C11: after a successful `addUserFav` of user `a` for user `b` (so `a` and `b` are
distinct existing users), from a state without the edge `(b, a)`, the check asked
by `b` about `a` answers `isFav: false` and the check asked by `a` about `b`
answers `isFav: true` (`a` a valid id, no driver call of the checks failing). And
for two different ids the conjunct `NOT (user_id = ? AND favUser_id = ?)` of the
query selects the same rows as the query without it, in every store. -/
theorem C11_symmetry_independence (f : Faults) (w : World) (a b : Nat) (hw : w.tx = none)
    (ha : a ≠ 0)
    (hba : ∀ r ∈ w.committed.users_favorites, ¬(r.user_id = b ∧ r.favUser_id = a))
    (hsucc : (runHandler (addUserFav (userRequest a b)) f w).1 = .json 201 "userAdded") :
    (runHandler (checkIfUserIsFav (userRequest b a)) noFaults
      (runHandler (addUserFav (userRequest a b)) f w).2).1 = .isFav false ∧
    (runHandler (checkIfUserIsFav (userRequest a b)) noFaults
      (runHandler (addUserFav (userRequest a b)) f w).2).1 = .isFav true ∧
    ∀ (s : Store) (x y : Nat), x ≠ y →
      (Sql.selectUserFavoriteNotReversed x y y x s).1 = (Sql.selectUserFavorite x y s).1 := by
  obtain ⟨hb, hab, -, -, -, hrun⟩ := addUserFav_success f w a b hw _ _ hsucc
  have hba2 : b ≠ a := fun h => hab h.symm
  refine ⟨?_, ?_, fun s x y hxy => selectUserFavoriteNotReversed_eq x y hxy s⟩
  · rw [hrun, checkIfUserIsFav_noFaults _ b a rfl ha hba2]
    have : (w.committed.users_favorites ++ [(⟨a, b⟩ : UserFavoriteRow)]).any
        (fun r => r.user_id == b && r.favUser_id == a) = false := by
      rw [List.any_eq_false]
      intro r hr
      rcases List.mem_append.1 hr with h | h
      · simpa using hba r h
      · rw [List.mem_singleton.1 h]
        simp [hab]
    simp [this]
  · rw [hrun, checkIfUserIsFav_noFaults _ a b rfl hb hab]
    simp

/-- C11 in the scenario without user favorites: user 1 adds user 2; then user 2
does not have user 1 as a favorite and user 1 has user 2. -/
theorem C11_symmetry_independence_witness :
    (runHandler (checkIfUserIsFav (userRequest 2 1)) noFaults
      (runHandler (addUserFav (userRequest 1 2)) noFaults quietWorld).2).1 = .isFav false ∧
    (runHandler (checkIfUserIsFav (userRequest 1 2)) noFaults
      (runHandler (addUserFav (userRequest 1 2)) noFaults quietWorld).2).1 = .isFav true :=
  ⟨(C11_symmetry_independence noFaults quietWorld 1 2 rfl (by decide) (by decide)
      (by decide)).1,
   (C11_symmetry_independence noFaults quietWorld 1 2 rfl (by decide) (by decide)
      (by decide)).2.1⟩

/-- C12: for distinct ids `a` and `b` (`b` a valid `uid`), when user `a` or user `b`
does not exist, `addUserFav` and `removeUserFav` asked by `a` about `b` make three
driver calls (`getConnection` and the two existence queries), answer the 404 "One
or both users do not exist." and leave the store as it was; and whatever driver
calls fail, the store is left as it was. -/
theorem C12_missing_endpoint (f : Faults) (w : World) (a b : Nat) (hw : w.tx = none)
    (hb : b ≠ 0) (hab : a ≠ b)
    (hmiss : (¬ ∃ u ∈ w.committed.users, u.id = a) ∨ (¬ ∃ u ∈ w.committed.users, u.id = b)) :
    runHandler (addUserFav (userRequest a b)) noFaults w =
      (.next 404 "One or both users do not exist.",
        ⟨w.committed, none, w.autoInc, w.calls + 3, w.acquired + 1, w.released + 1⟩) ∧
    runHandler (removeUserFav (userRequest a b)) noFaults w =
      (.next 404 "One or both users do not exist.",
        ⟨w.committed, none, w.autoInc, w.calls + 3, w.acquired + 1, w.released + 1⟩) ∧
    (runHandler (addUserFav (userRequest a b)) f w).2.committed = w.committed ∧
    (runHandler (removeUserFav (userRequest a b)) f w).2.committed = w.committed :=
  ⟨addUserFav_missing w a b hw hb hab hmiss, removeUserFav_missing w a b hw hb hab hmiss,
    addUserFav_missing_unchanged f w a b hw hmiss,
    removeUserFav_missing_unchanged f w a b hw hmiss⟩

/-- C12 in the scenario: user 1 names the missing user 3. -/
theorem C12_missing_endpoint_witness :
    (runHandler (addUserFav (userRequest 1 3)) noFaults scenarioWorld).1 =
      .next 404 "One or both users do not exist." ∧
    (runHandler (removeUserFav (userRequest 1 3)) noFaults scenarioWorld).1 =
      .next 404 "One or both users do not exist." ∧
    (runHandler (addUserFav (userRequest 1 3)) (failAt 2) scenarioWorld).2.committed =
      scenarioStore :=
  ⟨congrArg Prod.fst (C12_missing_endpoint noFaults scenarioWorld 1 3 rfl (by decide)
      (by decide) (Or.inr (by decide))).1,
   congrArg Prod.fst (C12_missing_endpoint noFaults scenarioWorld 1 3 rfl (by decide)
      (by decide) (Or.inr (by decide))).2.1,
   (C12_missing_endpoint (failAt 2) scenarioWorld 1 3 rfl (by decide)
      (by decide) (Or.inr (by decide))).2.2.1⟩

/-- C13: for distinct existing users `a` and `b` (`b` a valid `uid`, no driver call
failing), `removeUserFav` asked by `a` about `b` answers the 404 "This relationship
does not exist." and leaves the store as it was when the edge `(a, b)` is absent;
when it is there, the answer is 200 and the store afterwards is the store before
without the rows `(a, b)` of `users_favorites`: every other row, the rows `(b, a)`
among them, is kept. -/
theorem C13_remove_user_favorite (w : World) (a b : Nat) (hw : w.tx = none)
    (hb : b ≠ 0) (hab : a ≠ b)
    (hea : ∃ u ∈ w.committed.users, u.id = a) (heb : ∃ u ∈ w.committed.users, u.id = b) :
    ((∀ r ∈ w.committed.users_favorites, ¬(r.user_id = a ∧ r.favUser_id = b)) →
      runHandler (removeUserFav (userRequest a b)) noFaults w =
        (.next 404 "This relationship does not exist.",
          ⟨w.committed, none, w.autoInc, w.calls + 4, w.acquired + 1, w.released + 1⟩)) ∧
    ((∃ r ∈ w.committed.users_favorites, r.user_id = a ∧ r.favUser_id = b) →
      (runHandler (removeUserFav (userRequest a b)) noFaults w).1 = .json 200 "userRemoved" ∧
      (runHandler (removeUserFav (userRequest a b)) noFaults w).2.committed =
        { w.committed with
          users_favorites := w.committed.users_favorites.filter
            (fun r => !(r.user_id == a && r.favUser_id == b)) } ∧
      (runHandler (removeUserFav (userRequest a b)) noFaults
        w).2.committed.users_favorites.filter
          (fun r => r.user_id == b && r.favUser_id == a) =
        w.committed.users_favorites.filter (fun r => r.user_id == b && r.favUser_id == a)) := by
  refine ⟨fun habsent => removeUserFav_absent w a b hw hb hab hea heb habsent, ?_⟩
  intro hpresent
  rw [removeUserFav_present w a b hw hb hab hea heb hpresent]
  refine ⟨rfl, rfl, ?_⟩
  dsimp only
  rw [List.filter_filter]
  apply List.filter_congr
  intro r _
  by_cases h1 : r.user_id = b <;> by_cases h2 : r.favUser_id = a <;> simp [h1, h2]
  exact Or.inr hab

/-- C13 in the scenario: user 2 removes user 1 (the edge is there), user 1 removes
user 2 (the edge is absent). -/
theorem C13_remove_user_favorite_witness :
    runHandler (removeUserFav (userRequest 1 2)) noFaults scenarioWorld =
      (.next 404 "This relationship does not exist.",
        ⟨scenarioStore, none, 9, 4, 1, 1⟩) ∧
    (runHandler (removeUserFav (userRequest 2 1)) noFaults scenarioWorld).1 =
      .json 200 "userRemoved" :=
  ⟨(C13_remove_user_favorite scenarioWorld 1 2 rfl (by decide) (by decide) (by decide)
      (by decide)).1 (by decide),
   ((C13_remove_user_favorite scenarioWorld 2 1 rfl (by decide) (by decide) (by decide)
      (by decide)).2 (by decide)).1⟩

/-- C14 (the code departs from the claim): in the scenario project 7 belongs to
user 1; the request of user 2 (authenticated as user 2) to delete project 7 is
answered 200 and removes the project and its `projects_technologies` rows.
`deleteProject` compares the body `userId` with the authenticated id only and never
reads the creator of the project. -/
theorem C14_deleteProject_by_another_user :
    (runHandler (deleteProject (projectRequest 2 7)) noFaults scenarioWorld).1 =
      .json 200 "projectDeleted" ∧
    (runHandler (deleteProject (projectRequest 2 7)) noFaults
      scenarioWorld).2.committed.projects = [⟨8, "Q", "first project of bob", 2⟩] ∧
    (runHandler (deleteProject (projectRequest 2 7)) noFaults
      scenarioWorld).2.committed.projects_technologies = [⟨8, 10⟩] := by
  decide

/-- C15 (the code departs from the claim): in the scenario user 2 has project 7
among the favorites; after the successful `deleteProject` of project 7 by its
creator no `projects_technologies` row names project 7, but the
`projects_favorites` row `(2, 7)` is still there. No statement of `deleteProject`
names `projects_favorites`. -/
theorem C15_deleteProject_leaves_projects_favorites :
    (runHandler (deleteProject (projectRequest 1 7)) noFaults scenarioWorld).1 =
      .json 200 "projectDeleted" ∧
    (runHandler (deleteProject (projectRequest 1 7)) noFaults
      scenarioWorld).2.committed.projects.map (fun p => p.id) = [8] ∧
    (runHandler (deleteProject (projectRequest 1 7)) noFaults
      scenarioWorld).2.committed.projects_technologies.filter
        (fun r => r.project_id == 7) = [] ∧
    (runHandler (deleteProject (projectRequest 1 7)) noFaults
      scenarioWorld).2.committed.projects_favorites.filter
        (fun r => r.project_id == 7) = [⟨2, 7⟩] := by
  decide

/-- C16 (the code departs from the claim): when `beginTransaction` is the call that
fails, `addProject`, `deleteProject` and `editProject` end with the connection they
acquired not released (the pool counts one acquisition more than releases; in
`editProject` the connection of `getProjectCreatorId` was released, the second one
is not): `beginTransaction` is awaited before the `try` whose `finally` releases.
`deleteUser`, which begins inside the `try`, releases. -/
theorem C16_connection_leak_on_begin :
    ((runHandler (addProject requestAddProject) (failAt 1) scenarioWorld).1 =
        .rejected .driver ∧
      (runHandler (addProject requestAddProject) (failAt 1) scenarioWorld).2.acquired = 1 ∧
      (runHandler (addProject requestAddProject) (failAt 1) scenarioWorld).2.released = 0) ∧
    ((runHandler (deleteProject (projectRequest 1 7)) (failAt 1) scenarioWorld).1 =
        .rejected .driver ∧
      (runHandler (deleteProject (projectRequest 1 7)) (failAt 1)
        scenarioWorld).2.acquired = 1 ∧
      (runHandler (deleteProject (projectRequest 1 7)) (failAt 1)
        scenarioWorld).2.released = 0) ∧
    ((runHandler (editProject requestEditProject7) (failAt 3) scenarioWorld).1 =
        .rejected .driver ∧
      (runHandler (editProject requestEditProject7) (failAt 3) scenarioWorld).2.acquired = 2 ∧
      (runHandler (editProject requestEditProject7) (failAt 3) scenarioWorld).2.released = 1) ∧
    ((runHandler (deleteUser requestDeleteUser1) (failAt 1) scenarioWorld).2.acquired = 1 ∧
      (runHandler (deleteUser requestDeleteUser1) (failAt 1) scenarioWorld).2.released = 1) := by
  decide

/-- C17: after a successful `deleteUser` of user `U` (the body `userId`), the
`users` rows other than the row of `U`, the projects not owned by `U`, and the
`users_favorites` rows whose source and target both differ from `U` are exactly
what is left of these tables, unchanged and in order; `projects_favorites` is as
before; the `projects_technologies` rows left are those whose `project_id` is not
the id of a project of `U`, so that, when the id of a project determines its owner
(as it does when `id` is a key), every project not owned by `U` keeps its rows. -/
theorem C17_deleteUser_frame (f : Faults) (w : World) (req : Request) (hw : w.tx = none)
    (hsucc : (runHandler (deleteUser req) f w).1 = .json 200 "userDeleted") :
    (runHandler (deleteUser req) f w).2.committed.users =
      w.committed.users.filter (fun r => !(r.id == req.userId)) ∧
    (runHandler (deleteUser req) f w).2.committed.projects =
      w.committed.projects.filter (fun p => !(p.fk_user == req.userId)) ∧
    (runHandler (deleteUser req) f w).2.committed.users_favorites =
      w.committed.users_favorites.filter
        (fun r => !(r.user_id == req.userId || r.favUser_id == req.userId)) ∧
    (runHandler (deleteUser req) f w).2.committed.projects_favorites =
      w.committed.projects_favorites ∧
    (runHandler (deleteUser req) f w).2.committed.projects_technologies =
      w.committed.projects_technologies.filter
        (fun r => !(((w.committed.projects.filter (fun p => p.fk_user == req.userId)).map
          (fun p => p.id)).contains r.project_id)) ∧
    ((∀ q ∈ w.committed.projects, ∀ q' ∈ w.committed.projects,
        q.id = q'.id → q.fk_user = q'.fk_user) →
      ∀ q ∈ w.committed.projects, q.fk_user ≠ req.userId →
        (runHandler (deleteUser req) f w).2.committed.projects_technologies.filter
            (fun r => r.project_id == q.id) =
          w.committed.projects_technologies.filter (fun r => r.project_id == q.id)) := by
  rw [deleteUser_success f w req hw _ _ hsucc]
  refine ⟨rfl, rfl, rfl, rfl, rfl, ?_⟩
  intro hkey q hq hne
  dsimp only
  rw [List.filter_filter]
  apply List.filter_congr
  intro r _
  by_cases hr : r.project_id = q.id
  · have hnot : ¬ q.id ∈ (w.committed.projects.filter (fun p => p.fk_user == req.userId)).map
        (fun p => p.id) := by
      intro hmem
      obtain ⟨q', hq', hid⟩ := List.mem_map.1 hmem
      obtain ⟨hq'1, hq'2⟩ := List.mem_filter.1 hq'
      have := hkey q hq q' hq'1 hid.symm
      simp only [beq_iff_eq] at hq'2
      exact hne (this.trans hq'2)
    simp [hr, hnot]
  · simp [hr]

/-- C17 in the scenario: deleting user 1 leaves the row of user 2, project 8 and
its technology row. -/
theorem C17_deleteUser_frame_witness :
    (runHandler (deleteUser requestDeleteUser1) noFaults scenarioWorld).2.committed.users =
      [⟨2, "bob", "bob@example.org"⟩] ∧
    (runHandler (deleteUser requestDeleteUser1) noFaults scenarioWorld).2.committed.projects =
      [⟨8, "Q", "first project of bob", 2⟩] ∧
    (runHandler (deleteUser requestDeleteUser1) noFaults
      scenarioWorld).2.committed.projects_technologies.filter
        (fun r => r.project_id == 8) = [⟨8, 10⟩] :=
  ⟨(C17_deleteUser_frame noFaults scenarioWorld requestDeleteUser1 rfl (by decide)).1,
   (C17_deleteUser_frame noFaults scenarioWorld requestDeleteUser1 rfl (by decide)).2.1,
   (C17_deleteUser_frame noFaults scenarioWorld requestDeleteUser1 rfl
      (by decide)).2.2.2.2.2 (by decide) ⟨8, "Q", "first project of bob", 2⟩ (by decide)
      (by decide)⟩

/-- C18: for a request on a project `p` (a valid id, the validation passing) whose
creator lookup returns `creatorId`, `editProject` proceeds to the update (and,
no driver call failing, answers 200 with the name and description written) exactly
when the body `userId` equals the authenticated id and equals `creatorId`; a
creator editing the own project is accepted. When one of the two equalities
fails, the answer is the 401, after the two driver calls of the lookup and
nothing else: the store is as before. -/
theorem C18_editProject_authorization (w : World) (req : Request) (p creatorId : Nat)
    (rest : List Nat) (hw : w.tx = none) (hpid : req.pid = some p) (hp : p ≠ 0)
    (hval : req.validationErrors = [])
    (hrows : (Sql.selectCreatorOfProject p w.committed).1 = creatorId :: rest) :
    ((runHandler (editProject req) noFaults w).1 = .json 200 "projectEdited" ↔
      (req.userId = req.authUserId ∧ req.userId = creatorId)) ∧
    (req.userId = req.authUserId ∧ req.userId = creatorId →
      (runHandler (editProject req) noFaults w).2.committed.projects =
        w.committed.projects.map (fun r =>
          if r.id == p && r.fk_user == req.userId then
            { r with name := req.projectName, description := req.projectDesc }
          else r)) ∧
    (¬(req.userId = req.authUserId ∧ req.userId = creatorId) →
      ∀ f : Faults, f w.calls = false → f (w.calls + 1) = false →
        runHandler (editProject req) f w =
          (.next 401 "You're not allowed to edit this project",
            ⟨w.committed, none, w.autoInc, w.calls + 2, w.acquired + 1, w.released + 1⟩)) := by
  have hacc : req.userId = req.authUserId ∧ req.userId = creatorId →
      runHandler (editProject req) noFaults w =
        (.json 200 "projectEdited",
          ⟨{ w.committed with
              projects := w.committed.projects.map (fun r =>
                if r.id == p && r.fk_user == req.userId then
                  { r with name := req.projectName, description := req.projectDesc }
                else r)
              projects_technologies :=
                w.committed.projects_technologies.filter (fun r => !(r.project_id == p)) ++
                  (req.technologies.getD []).map (fun t => ⟨p, t⟩) },
            none, w.autoInc, w.calls + 7 + (req.technologies.getD []).length,
            w.acquired + 2, w.released + 2⟩) :=
    fun h => editProject_noFaults w req p creatorId rest hw hpid hp hval hrows h.1 h.2
  refine ⟨⟨?_, fun h => by rw [hacc h]⟩, fun h => by rw [hacc h], ?_⟩
  · intro hok
    by_contra hno
    rw [editProject_unauthorized noFaults w req p creatorId rest hw hpid hp hval hrows hno
      rfl rfl] at hok
    cases hok
  · intro hno f h0 h1
    exact editProject_unauthorized f w req p creatorId rest hw hpid hp hval hrows hno h0 h1

/-- C18 in the scenario: user 1, creator of project 7, is accepted; user 2 is
answered 401. -/
theorem C18_editProject_authorization_witness :
    (runHandler (editProject requestEditProject7) noFaults scenarioWorld).1 =
      .json 200 "projectEdited" ∧
    runHandler (editProject (projectRequest 2 7)) noFaults scenarioWorld =
      (.next 401 "You're not allowed to edit this project",
        ⟨scenarioStore, none, 9, 2, 1, 1⟩) :=
  ⟨(C18_editProject_authorization scenarioWorld requestEditProject7 7 1 [] rfl rfl
      (by decide) rfl rfl).1.2 (by decide),
   (C18_editProject_authorization scenarioWorld (projectRequest 2 7) 7 1 [] rfl rfl
      (by decide) rfl rfl).2.2 (by decide) noFaults rfl rfl⟩

/-- C19 (the code departs from the claim): when `pool.getConnection` is the call
that fails, `addProject`, `deleteProject` and `editProject` (the call sits before
the `try`) let the driver error escape, and `deleteUser` (the call sits inside the
`try`, the catch block calls `rollback` on the undefined connection) lets a
TypeError escape; when `beginTransaction` is the call that fails, `addProject`,
`deleteProject` and `editProject` let the driver error escape. In none of these
runs `next` gets the 500. -/
theorem C19_errors_escape :
    (runHandler (addProject requestAddProject) (failAt 0) scenarioWorld).1 =
      .rejected .driver ∧
    (runHandler (deleteProject (projectRequest 1 7)) (failAt 0) scenarioWorld).1 =
      .rejected .driver ∧
    (runHandler (editProject requestEditProject7) (failAt 0) scenarioWorld).1 =
      .rejected .driver ∧
    (runHandler (editProject requestEditProject7) (failAt 2) scenarioWorld).1 =
      .rejected .driver ∧
    (runHandler (deleteUser requestDeleteUser1) (failAt 0) scenarioWorld).1 =
      .rejected .typeError ∧
    (runHandler (addProject requestAddProject) (failAt 1) scenarioWorld).1 =
      .rejected .driver ∧
    (runHandler (deleteProject (projectRequest 1 7)) (failAt 1) scenarioWorld).1 =
      .rejected .driver ∧
    (runHandler (editProject requestEditProject7) (failAt 3) scenarioWorld).1 =
      .rejected .driver := by
  decide

/-- C20 as stated fails: in the scenario users 1 and 2 exist and the edge `(1, 2)`
is absent, project 7 exists; when the `INSERT` is the call that fails (position 4
in `addUserFav`, position 2 in `addProjectFav`) the answer is the 500 of the catch
block, not the 422. -/
theorem C20_counterexample :
    (runHandler (addUserFav (userRequest 1 2)) (failAt 4) scenarioWorld).1 =
      .next 500 "Could not add this user to favorites" ∧
    (runHandler (addUserFav (userRequest 1 2)) (failAt 4) scenarioWorld).1 ≠
      .next 422 "This relationship already exists." ∧
    (runHandler (addProjectFav (projectRequest 1 7)) (failAt 2) scenarioWorld).1 =
      .next 500 "Could not add this project to favorites" := by
  decide

/-- C20 (amended): in every run of `addUserFav` (asked by `a` about `b`) or
`addProjectFav` (asked by `u` about `p`) in which the existence checks pass and
the `INSERT` is the call that fails, the handler reports the 500 of its catch
block through `next`, releases the connection and leaves the store as it was.
The catch block does not look at the error: a violated constraint is reported
like any other failure. -/
theorem C20_insert_failure_is_500 (f : Faults) (w : World) (hw : w.tx = none) :
    (∀ a b, b ≠ 0 → a ≠ b → (∃ u ∈ w.committed.users, u.id = a) →
      (∃ u ∈ w.committed.users, u.id = b) →
      (∀ r ∈ w.committed.users_favorites, ¬(r.user_id = a ∧ r.favUser_id = b)) →
      f w.calls = false → f (w.calls + 1) = false → f (w.calls + 2) = false →
      f (w.calls + 3) = false → f (w.calls + 4) = true →
      runHandler (addUserFav (userRequest a b)) f w =
        (.next 500 "Could not add this user to favorites",
          ⟨w.committed, none, w.autoInc, w.calls + 5, w.acquired + 1, w.released + 1⟩)) ∧
    (∀ u p, p ≠ 0 → (∃ r ∈ w.committed.projects, r.id = p) →
      f w.calls = false → f (w.calls + 1) = false → f (w.calls + 2) = true →
      runHandler (addProjectFav (projectRequest u p)) f w =
        (.next 500 "Could not add this project to favorites",
          ⟨w.committed, none, w.autoInc, w.calls + 3, w.acquired + 1, w.released + 1⟩)) :=
  ⟨fun a b hb hab hea heb habsent h0 h1 h2 h3 h4 =>
      addUserFav_insert_fails f w a b hw hb hab hea heb habsent h0 h1 h2 h3 h4,
    fun u p hp hex h0 h1 h2 => addProjectFav_insert_fails f w u p hw hp hex h0 h1 h2⟩

/-- C20 (amended) in the scenario: user 1 adds user 2 and project 7, the `INSERT`
failing. -/
theorem C20_insert_failure_is_500_witness :
    runHandler (addUserFav (userRequest 1 2)) (failAt 4) scenarioWorld =
      (.next 500 "Could not add this user to favorites",
        ⟨scenarioStore, none, 9, 5, 1, 1⟩) ∧
    runHandler (addProjectFav (projectRequest 1 7)) (failAt 2) scenarioWorld =
      (.next 500 "Could not add this project to favorites",
        ⟨scenarioStore, none, 9, 3, 1, 1⟩) :=
  ⟨(C20_insert_failure_is_500 (failAt 4) scenarioWorld rfl).1 1 2 (by decide) (by decide)
      (by decide) (by decide) (by decide) rfl rfl rfl rfl rfl,
   (C20_insert_failure_is_500 (failAt 2) scenarioWorld rfl).2 1 7 (by decide) (by decide)
      rfl rfl rfl⟩

/-- C21: whatever driver calls fail and however `editProject` ends, the `projects`
rows of the durable state after the call are the rows before the call, position
by position, each with the same `id` and the same `fk_user`; a row is the same
row as before unless its `id` is the `pid` of the request and its `fk_user` is the
body `userId`, which is then the authenticated id. The same holds of the working
copy of the transaction when a failed rollback leaves it open. -/
theorem C21_creator_immutability (f : Faults) (w : World) (req : Request) (hw : w.tx = none) :
    List.Forall₂
      (fun (r r' : ProjectRow) => r'.id = r.id ∧ r'.fk_user = r.fk_user ∧
        (¬(req.pid = some r.id ∧ r.fk_user = req.userId ∧ req.userId = req.authUserId) →
          r' = r))
      w.committed.projects (runHandler (editProject req) f w).2.committed.projects ∧
    (∀ s, (runHandler (editProject req) f w).2.tx = some s →
      List.Forall₂
        (fun (r r' : ProjectRow) => r'.id = r.id ∧ r'.fk_user = r.fk_user ∧
          (¬(req.pid = some r.id ∧ r.fk_user = req.userId ∧ req.userId = req.authUserId) →
            r' = r))
        w.committed.projects s.projects) := by
  have hk : Keeps
      (fun s : Store => List.Forall₂
        (fun (r r' : ProjectRow) => r'.id = r.id ∧ r'.fk_user = r.fk_user ∧
          (¬(req.pid = some r.id ∧ r.fk_user = req.userId ∧ req.userId = req.authUserId) →
            r' = r))
        w.committed.projects s.projects)
      (editProject req) := by
    apply editProject_keeps
    · intro s p hpid hauth h
      exact updateProject_frame req.projectName req.projectDesc p req.userId _
        (fun r hr hu => ⟨hr ▸ hpid, hu, hauth⟩) _ _ h
    · intro _ _ h
      exact h
    · intro _ _ _ h
      exact h
  rw [runHandler_snd]
  exact hk f w (List.forall₂_same.2 (fun _ _ => ⟨rfl, rfl, fun _ => rfl⟩))
    (fun s hs => by rw [hw] at hs; cases hs)

/-- C21 in the scenario: user 1 edits project 7. When no call fails, the row of
project 7 gets the new name and description and keeps `fk_user` 1, the row of
project 8 is as before. When the `DELETE` and then the rollback fail (positions 5
and 6), the durable rows are as before and the working copy left open holds the
renamed row of project 7, still with `fk_user` 1. -/
theorem C21_creator_immutability_witness :
    (runHandler (editProject requestEditProject7) noFaults scenarioWorld).2.committed.projects =
      [⟨7, "P2", "renamed project of ann", 1⟩, ⟨8, "Q", "first project of bob", 2⟩] ∧
    List.Forall₂
      (fun (r r' : ProjectRow) => r'.id = r.id ∧ r'.fk_user = r.fk_user ∧
        (¬(requestEditProject7.pid = some r.id ∧ r.fk_user = requestEditProject7.userId ∧
            requestEditProject7.userId = requestEditProject7.authUserId) →
          r' = r))
      scenarioWorld.committed.projects
      (runHandler (editProject requestEditProject7) noFaults scenarioWorld).2.committed.projects ∧
    (runHandler (editProject requestEditProject7) (fun i => i == 5 || i == 6)
      scenarioWorld).2.committed.projects = scenarioStore.projects ∧
    (runHandler (editProject requestEditProject7) (fun i => i == 5 || i == 6)
      scenarioWorld).2.tx.map (fun s => s.projects) =
        some [⟨7, "P2", "renamed project of ann", 1⟩, ⟨8, "Q", "first project of bob", 2⟩] :=
  ⟨by decide,
   (C21_creator_immutability noFaults scenarioWorld requestEditProject7 rfl).1,
   by decide, by decide⟩

end Codify
